import Mathlib

/-!
# Verification of the corgi entity-component framework

Shallow embedding of the entity-component core (`src/include/entity/component.h`,
`src/include/entity/component_interface.h`) and of the concrete component
implementations (`src/component_library/src/{graph,rendermesh,physics}.cpp`,
`src/component_library/include/component_library/physics.h`).

The pool (`vector_pool.h`), the entity index table (`entity.h`) and the small
constants of `entity_common.h` are not among the sources; they are modelled
from the specification (§3 data model, §4.1 pool contract, §4.2 entity
registry), as noted on each such definition.
-/

set_option maxHeartbeats 1000000

namespace Corgi

/-- `AllocationLocation` from entity_common.h (modelled from the spec:
`placement` is one of {front, back}, controlling where the new element is
spliced into the iteration order). -/
inductive AllocationLocation where
  | kAddToFront
  | kAddToBack
deriving DecidableEq, Repr

/-- Modelled from the spec: `vector_pool.h` is not among the sources.
Pool state per §3/§4.1: a growable backing array of slots, each either
free (available for reuse through the free list) or occupied; occupied
slots are threaded into a doubly-linked iteration order, represented here
as the list `order` of occupied slot indices in visit order.  `freeList`
is the LIFO list of freed slot indices awaiting reuse. -/
structure VectorPool (T : Type) where
  slots : List (Option T)
  freeList : List Nat
  order : List Nat
deriving Repr

namespace VectorPool

/-- The empty pool. -/
def empty {T : Type} : VectorPool T := ⟨[], [], []⟩

/-- Modelled from the spec: total size of the growable backing array
(§3: slots, free or occupied, occupy a growable backing array whose
indices stay valid; used by `Component::GetComponentData` as the upper
bound on valid slot indices). -/
def Size {T : Type} (p : VectorPool T) : Nat := p.slots.length

/-- Modelled from the spec: count of occupied slots (§4.1 `size()`,
§8 "size() equals the number of allocations minus frees"). -/
def activeCount {T : Type} (p : VectorPool T) : Nat := p.order.length

/-- Modelled from the spec: `get(handle)` returns the payload, or null if
the handle's slot is free or out of range (§4.1). -/
def GetElementData {T : Type} (p : VectorPool T) (i : Nat) : Option T :=
  p.slots.getD i none

/-- Whether slot `i` currently holds an element. -/
def isOccupied {T : Type} (p : VectorPool T) (i : Nat) : Bool :=
  (p.GetElementData i).isSome

/-- Modelled from the spec: `allocate(placement)` (§4.1).  Reuses the head
of the free list when one exists, otherwise grows the backing array; the
new element is spliced at the front or the back of the iteration order
according to `placement`, independent of its storage slot index.  Returns
the new slot index together with the updated pool. -/
def GetNewElement {T : Type} (p : VectorPool T) (loc : AllocationLocation)
    (init : T) : Nat × VectorPool T :=
  match p.freeList with
  | [] =>
      let i := p.slots.length
      (i, { slots := p.slots ++ [some init]
            freeList := []
            order := match loc with
              | .kAddToFront => i :: p.order
              | .kAddToBack => p.order ++ [i] })
  | i :: rest =>
      (i, { slots := p.slots.set i (some init)
            freeList := rest
            order := match loc with
              | .kAddToFront => i :: p.order
              | .kAddToBack => p.order ++ [i] })

/-- Modelled from the spec: `free(handle)` (§4.1) destructs the payload,
unlinks the slot from the iteration order in O(1), and returns the slot to
the free list; it is a silent no-op if the slot is already free. -/
def FreeElement {T : Type} (p : VectorPool T) (i : Nat) : VectorPool T :=
  if p.isOccupied i then
    { slots := p.slots.set i none
      freeList := i :: p.freeList
      order := p.order.erase i }
  else p

/-- Replace the payload of slot `i` (used by `Component::AddEntity` to
write the entity back-pointer into the freshly allocated record). -/
def setElementData {T : Type} (p : VectorPool T) (i : Nat) (v : T) :
    VectorPool T :=
  { p with slots := p.slots.set i (some v) }

/-- The element following the first occurrence of `i` in `l`. -/
def afterIn : List Nat → Nat → Option Nat
  | [], _ => none
  | x :: xs, i => if x = i then xs.head? else afterIn xs i

/-- The slot visited after slot `i` in the iteration order, or `none` if
`i` is last (the `end` iterator).  Modelled from the spec: traversal
follows the iteration-order links of the occupied slots (§4.1). -/
def nextOf {T : Type} (p : VectorPool T) (i : Nat) : Option Nat :=
  afterIn p.order i

/-- Modelled from the spec: the iterator form of `free`: frees the slot the
iterator denotes and returns an iterator to the next live element (§4.1
"remove current, continue from next"). -/
def FreeElementIter {T : Type} (p : VectorPool T) (i : Nat) :
    VectorPool T × Option Nat :=
  (p.FreeElement i, p.nextOf i)

/-- Modelled from the spec: `begin()` — the first element of the iteration
order, or `none` (= `end()`) for an empty pool. -/
def beginIter {T : Type} (p : VectorPool T) : Option Nat := p.order.head?

/-- The elements of the pool in iteration order, those still to be visited
from an iterator positioned at slot `i`. -/
def toVisit {T : Type} (p : VectorPool T) (it : Option Nat) : List Nat :=
  match it with
  | none => []
  | some i => p.order.dropWhile (fun x => x ≠ i)

/-- Pool consistency: the iteration order lists each occupied slot exactly
once and only occupied slots; free-list entries are in range and free. -/
structure WF {T : Type} (p : VectorPool T) : Prop where
  nodup : p.order.Nodup
  mem_iff : ∀ i, i ∈ p.order ↔ p.isOccupied i = true
  free_lt : ∀ i ∈ p.freeList, i < p.slots.length
  free_free : ∀ i ∈ p.freeList, p.isOccupied i = false

end VectorPool

/-- `Component<T>::ComponentData` (component.h:38-41): the per-entity
record pairing the owning entity's reference with the payload `T`.
Entities are identified by their id (a `Nat`); a default-constructed
`EntityRef` (no entity yet) is `none`. -/
structure ComponentData (T : Type) where
  entity : Option Nat
  data : T
deriving Repr, DecidableEq

/-- The state a `Component<T>` instance operates on: its pool of records
(`component_data_`, component.h:225) together with the per-entity index
table entries for this component's type id.  The table is modelled from
the spec (§4.2, entity.h is absent): `tbl e = some i` means entity `e`'s
index-table entry for this type holds slot index `i`; `none` is the
`kUnusedComponentIndex` sentinel.  `aux` is the state the concrete
component's virtual hooks act on (observation log or subclass state). -/
structure CompState (T A : Type) where
  component_data : VectorPool (ComponentData T)
  tbl : Nat → Option Nat
  aux : A

/-- A virtual per-entity hook (`InitEntity` / `CleanupEntity`,
component.h:179/201): overridden by concrete components, it may read the
component state and update it. -/
def Hook (T A : Type) : Type := CompState T A → Nat → CompState T A

namespace CompState

/-- `Entity::IsRegisteredForComponent` for this component's type id
(modelled from the spec §4.2: registered iff the index-table entry is not
the unused sentinel). -/
def IsRegisteredForComponent {T A : Type} (st : CompState T A) (e : Nat) :
    Bool :=
  (st.tbl e).isSome

/-- `Component::GetComponentDataIndex` (component.h:221-223): the entity's
index-table entry for this component's type (`none` = sentinel). -/
def GetComponentDataIndex {T A : Type} (st : CompState T A) (e : Nat) :
    Option Nat :=
  st.tbl e

/-- `Entity::SetComponentDataIndex` for this component's type (modelled
from the spec §4.2: mutator used exclusively by the component base). -/
def SetComponentDataIndex {T A : Type} (st : CompState T A) (e : Nat)
    (v : Option Nat) : CompState T A :=
  { st with tbl := fun x => if x = e then v else st.tbl x }

/-- `Component::GetComponentData(size_t data_index)` (component.h:115-121):
null for the sentinel, otherwise the pool lookup (which is itself null for
a free or out-of-range slot). -/
def GetComponentDataAt {T A : Type} (st : CompState T A)
    (data_index : Option Nat) : Option T :=
  match data_index with
  | none => none
  | some i => (st.component_data.GetElementData i).map (fun cd => cd.data)

/-- `Component::GetComponentData(const EntityRef&)` (component.h:125-131):
reads the entity's data index and bound-checks it against the pool size
before the slot lookup (the sentinel is out of range by construction). -/
def GetComponentData {T A : Type} (st : CompState T A) (e : Nat) :
    Option T :=
  match st.GetComponentDataIndex e with
  | none => none
  | some i =>
      if st.component_data.Size ≤ i then none
      else st.GetComponentDataAt (some i)

/-- The `T*` returned by `Component::GetComponentData`, as a pointer:
`none` models nullptr, `some i` a pointer to the payload of slot `i`. -/
def GetComponentDataPtr {T A : Type} (st : CompState T A) (e : Nat) :
    Option Nat :=
  match st.GetComponentDataIndex e with
  | none => none
  | some i =>
      if st.component_data.Size ≤ i then none
      else if (st.component_data.GetElementData i).isSome then some i
      else none

/-- The allocation steps of `Component<T>::AddEntity` for an entity not
yet registered (component.h:63-67): allocate a pool record, record its
slot index in the entity's index table (`SetComponentDataIndex`), and
write the entity back-pointer into the record — all before `InitEntity`
runs.  Returns the new slot index with the updated state. -/
def addEntityAlloc {T A : Type} (dflt : T) (st : CompState T A) (e : Nat)
    (alloc_location : AllocationLocation) : Nat × CompState T A :=
  let alloc := st.component_data.GetNewElement alloc_location ⟨none, dflt⟩
  let index := alloc.1
  let st₁ := { st with component_data := alloc.2 }
  let st₂ := st₁.SetComponentDataIndex e (some index)
  let st₃ := { st₂ with component_data :=
    st₂.component_data.setElementData index ⟨some e, dflt⟩ }
  (index, st₃)

/-- `Component<T>::AddEntity(EntityRef&, AllocationLocation)`
(component.h:59-70): if the entity is already registered, return the
existing data; otherwise allocate a pool record, record its index in the
entity's index table, write the entity back-pointer into the record,
invoke the `InitEntity` hook, and return a pointer to the new data.
`initEntity` is the virtual hook; `T` records start default-constructed
(`dflt`). -/
def AddEntity {T A : Type} (initEntity : Hook T A) (dflt : T)
    (st : CompState T A) (e : Nat) (alloc_location : AllocationLocation) :
    Option Nat × CompState T A :=
  if st.IsRegisteredForComponent e then
    (st.GetComponentDataPtr e, st)
  else
    let a := addEntityAlloc dflt st e alloc_location
    let st₄ := initEntity a.2 e
    (some a.1, st₄)

/-- `Component<T>::AddEntity(EntityRef)` (component.h:72): the one-argument
overload allocates at the back. -/
def AddEntityBack {T A : Type} (initEntity : Hook T A) (dflt : T)
    (st : CompState T A) (e : Nat) : Option Nat × CompState T A :=
  AddEntity initEntity dflt st e .kAddToBack

/-- `Component::AddEntityGenerically` (component.h:53): calls
`AddEntity(entity)` and discards the returned data pointer. -/
def AddEntityGenerically {T A : Type} (initEntity : Hook T A) (dflt : T)
    (st : CompState T A) (e : Nat) : CompState T A :=
  (AddEntityBack initEntity dflt st e).2

/-- `Component::RemoveEntityInternal` (component.h:215-218): runs the
per-entity `CleanupEntity` hook. -/
def RemoveEntityInternal {T A : Type} (cleanupEntity : Hook T A)
    (st : CompState T A) (e : Nat) : CompState T A :=
  cleanupEntity st e

/-- `Component::RemoveEntity(EntityRef&)` (component.h:77-81): runs the
cleanup hook, then frees the entity's pool slot, then clears the entity's
index-table entry for this type (a sentinel index frees nothing, per the
pool's silent no-op on a non-occupied slot). -/
def RemoveEntity {T A : Type} (cleanupEntity : Hook T A)
    (st : CompState T A) (e : Nat) : CompState T A :=
  let st₁ := RemoveEntityInternal cleanupEntity st e
  let st₂ := { st₁ with component_data :=
    match st₁.GetComponentDataIndex e with
    | none => st₁.component_data
    | some i => st₁.component_data.FreeElement i }
  st₂.SetComponentDataIndex e none

/-- `Component::RemoveEntity(EntityIterator)` (component.h:85-91): reads
the entity from the record the iterator denotes, runs the cleanup hook,
frees the slot through the iterator form of `FreeElement` (obtaining the
iterator to the next live element), clears the entity's index-table entry,
and returns the new iterator. -/
def RemoveEntityIter {T A : Type} (cleanupEntity : Hook T A)
    (st : CompState T A) (iter : Nat) : CompState T A × Option Nat :=
  let e := (((st.component_data.GetElementData iter).map
    (fun cd => cd.entity)).join).getD 0
  let st₁ := RemoveEntityInternal cleanupEntity st e
  let free := st₁.component_data.FreeElementIter iter
  let st₂ := { st₁ with component_data := free.1 }
  (st₂.SetComponentDataIndex e none, free.2)

/-- The loop body of `Component::ClearComponentData` (component.h:152-156),
with explicit fuel standing for the loop's termination: starting from
`begin()`, remove the current element and continue from the returned
iterator until `end()` is reached. -/
def clearLoop {T A : Type} (cleanupEntity : Hook T A) :
    Nat → CompState T A → CompState T A
  | 0, st => st
  | fuel + 1, st =>
      match st.component_data.beginIter with
      | none => st
      | some i => clearLoop cleanupEntity fuel
          (RemoveEntityIter cleanupEntity st i).1

/-- `Component::ClearComponentData` (component.h:152-156): iterate from
`begin()`, removing every entity via the iterator-based `RemoveEntity`,
until the pool is exhausted.  The fuel `activeCount` is exactly the number
of iterations the source loop performs when the cleanup hook does not
re-register entities. -/
def ClearComponentData {T A : Type} (cleanupEntity : Hook T A)
    (st : CompState T A) : CompState T A :=
  clearLoop cleanupEntity st.component_data.activeCount st

/-- `Component::ExportRawData`'s base-class default (component.h:183-185):
components that do not support export return the nullptr sentinel, always. -/
def Component_ExportRawData_default {T A : Type} (_st : CompState T A)
    (_e : Nat) : Option Unit :=
  none

/-- Writing through the `T*` returned by `AddEntity`/`GetComponentData`:
replace the payload of the denoted record (the entity back-pointer is kept).
A null pointer writes nothing (the concrete components only write through
pointers `AddEntity` just returned). -/
def writeData {T A : Type} (st : CompState T A) (ptr : Option Nat)
    (f : T → T) : CompState T A :=
  match ptr with
  | none => st
  | some i =>
      { st with component_data := { st.component_data with
          slots := st.component_data.slots.set i
            ((st.component_data.slots.getD i none).map
              (fun cd => ⟨cd.entity, f cd.data⟩)) } }

/-- The shared shape of the concrete components' `AddFromRawData`
implementations: register the entity with `AddEntity` (no `InitEntity`
effect on this component's own state — the overrides register the entity
with a *different* component through the entity manager), then write the
deserialized payload through the returned pointer as a function of the
record's previous contents. -/
def addAndWrite {T A : Type} (dflt : T) (f : T → T) (st : CompState T A)
    (e : Nat) : CompState T A :=
  let r := AddEntityBack (fun s _ => s) dflt st e
  writeData r.2 r.1 f

/-- An observing `CleanupEntity` override: it records, in the component's
auxiliary state, the entity it was invoked for together with the data
`GetComponentData` returns for that entity at invocation time.  This is a
legitimate instance of the virtual hook of component.h:201, used to make
the hook's invocation count and its view of the data observable. -/
def obsCleanup (T : Type) : Hook T (List (Nat × Option T)) :=
  fun st e => { st with aux := st.aux ++ [(e, st.GetComponentData e)] }

/-- An observing `InitEntity` override (component.h:179): it records
whether the entity is already registered with this component at invocation
time, and the entity back-pointer stored in the record its index-table
entry denotes. -/
def obsInit (T : Type) : Hook T (List (Bool × Option Nat)) :=
  fun st e => { st with aux := st.aux ++
    [(st.IsRegisteredForComponent e,
      ((st.tbl e).bind (fun i => st.component_data.GetElementData i)).bind
        (fun cd => cd.entity))] }

/-- The observation `obsCleanup` records for the record in slot `i`: the
owning entity and the data `GetComponentData` shows for it. -/
def cleanupObs {T A : Type} (st : CompState T A) (i : Nat) :
    Nat × Option T :=
  (((st.component_data.GetElementData i).bind (fun cd => cd.entity)).getD 0,
   (st.component_data.GetElementData i).map (fun cd => cd.data))

/-- Component-level consistency (spec §4.2: an entity must never report a
non-sentinel index for a type id whose pool does not contain a
corresponding live slot for it; §3: the record stores a back-pointer to
its owning entity): the iteration order is duplicate-free, every listed
slot holds a record whose entity maps back to it, every table entry points
at a listed slot with the matching back-pointer, and every occupied slot
is listed. -/
structure StWF {T A : Type} (st : CompState T A) : Prop where
  nodup : st.component_data.order.Nodup
  order_occ : ∀ i ∈ st.component_data.order, ∃ e d,
    st.component_data.GetElementData i = some ⟨some e, d⟩ ∧
    st.tbl e = some i
  tbl_sound : ∀ e i, st.tbl e = some i →
    i ∈ st.component_data.order ∧ ∃ cd,
      st.component_data.GetElementData i = some cd ∧ cd.entity = some e
  occ_mem : ∀ i, st.component_data.isOccupied i = true →
    i ∈ st.component_data.order
  free_lt : ∀ i ∈ st.component_data.freeList,
    i < st.component_data.slots.length
  free_free : ∀ i ∈ st.component_data.freeList,
    st.component_data.isOccupied i = false

end CompState

/-- The visit sequence of a traversal that frees the current element at
every step and continues from the iterator `FreeElement` returns (§4.1
"remove current, continue from next"), with explicit fuel standing for
loop termination. -/
def removeAllVisits {T : Type} : Nat → VectorPool T → List Nat
  | 0, _ => []
  | fuel + 1, p =>
      match p.beginIter with
      | none => []
      | some i => i :: removeAllVisits fuel (p.FreeElement i)

/-! ## GraphComponent (graph.cpp) -/

/-- `SerializableGraphState` held in `GraphData::graphs`: a graph source
filename together with the graph-state object (`unique_ptr`; its contents
are irrelevant to (de)serialization, so it is modelled as present/absent). -/
structure SerializableGraphState where
  filename : String
  graph_state : Option Unit
deriving DecidableEq, Repr

/-- `GraphData`: the per-entity payload of `GraphComponent`. -/
structure GraphData where
  graphs : List SerializableGraphState
deriving DecidableEq, Repr

/-- A freshly constructed `GraphData` (no graphs). -/
def defaultGraphData : GraphData := ⟨[]⟩

/-- The `GraphDef` flatbuffer blob: an optional list of graph filenames. -/
structure GraphDef where
  filename_list : Option (List String)
deriving DecidableEq, Repr

/-- `GraphComponent::AddFromRawData` (graph.cpp:44-58): register the
entity (`AddEntity`), clear its graph list, and, when the blob carries a
filename list, push one `SerializableGraphState` per filename, each with a
fresh `GraphState`.  `GraphComponent` does not override `InitEntity`, so
the base no-op hook runs. -/
def graph_AddFromRawData {A : Type} (st : CompState GraphData A) (e : Nat)
    (raw : GraphDef) : CompState GraphData A :=
  CompState.addAndWrite defaultGraphData
    (fun _ => ⟨(raw.filename_list.getD []).map (fun f => ⟨f, some ()⟩)⟩) st e

/-- `GraphComponent::ExportRawData` (graph.cpp:82-98): nullptr for an
unregistered entity; otherwise a `GraphDef` whose `filename_list` holds
the filenames of the entity's graphs, the list field being added only when
at least one filename was collected. -/
def graph_ExportRawData {A : Type} (st : CompState GraphData A) (e : Nat) :
    Option GraphDef :=
  match st.GetComponentData e with
  | none => none
  | some data =>
      let filenames_vector := data.graphs.map (fun g => g.filename)
      some ⟨if 0 < filenames_vector.length then some filenames_vector
            else none⟩

/-! ## RenderMeshComponent (rendermesh.cpp) -/

/-- Modelled from the spec: the generated render-pass enum is not among
the sources; rendermesh.cpp uses exactly the passes `RenderPass_kOpaque`
and `RenderPass_kAlpha`. -/
def RenderPass_kOpaque : Nat := 0

/-- The alpha render pass id. -/
def RenderPass_kAlpha : Nat := 1

/-- Number of render passes (bound asserted on every blob entry). -/
def RenderPass_kCount : Nat := 2

/-- The `RenderMeshDef` flatbuffer blob. -/
structure RenderMeshDef where
  source_file : Option String
  shader : Option String
  render_pass : Option (List Nat)
  hidden : Bool
  ignore_culling : Bool
deriving DecidableEq, Repr

/-- `RenderMeshData`: the per-entity payload of `RenderMeshComponent`.
Loaded assets are modelled by the name they were loaded from (`none` =
null pointer); the tint is an RGBA quadruple. -/
structure RenderMeshData where
  mesh_filename : String
  shader_filename : String
  mesh : Option String
  shader : Option String
  ignore_culling : Bool
  default_hidden : Bool
  currently_hidden : Bool
  pass_mask : Nat
  tint : ℚ × ℚ × ℚ × ℚ
deriving DecidableEq, Repr

/-- A default-constructed `RenderMeshData`: empty filenames, null assets,
nothing hidden, no passes. -/
def defaultRenderMeshData : RenderMeshData :=
  ⟨"", "", none, none, false, false, false, 0, (0, 0, 0, 0)⟩

/-- The asset manager as `RenderMeshComponent` uses it: a mesh loader and
a shader loader (each may fail, returning null). -/
structure AssetMgr where
  loadMesh : String → Option String
  loadShader : String → Option String

/-- `RenderMeshComponent::AddFromRawData` (rendermesh.cpp:161-203).
Failure of any of the source's `assert`s is an `Except.error` (the
assertion message): a null asset manager, a blob without `source_file` or
without `shader`, a failed mesh or shader load, or a render-pass entry out
of range.  Otherwise the entity is registered and its record populated
from the blob; a blob without a `render_pass` list defaults to the opaque
pass.  (`InitEntity` registers the entity with `TransformComponent`
through the entity manager, rendermesh.cpp:42-44 — a different component's
state, untouched here.) -/
def rm_AddFromRawData {A : Type} (am : Option AssetMgr)
    (st : CompState RenderMeshData A) (e : Nat) (raw : RenderMeshDef) :
    Except String (CompState RenderMeshData A) :=
  match am with
  | none => .error "assert failed: asset_manager_ != nullptr"
  | some mgr =>
    match raw.source_file with
    | none => .error "assert failed: rendermesh_def->source_file() != nullptr"
    | some src =>
      match raw.shader with
      | none => .error "assert failed: rendermesh_def->shader() != nullptr"
      | some shd =>
        let r := CompState.AddEntityBack (fun s _ => s)
          defaultRenderMeshData st e
        match mgr.loadMesh src with
        | none => .error "assert failed: rendermesh_data->mesh != nullptr"
        | some mesh =>
          match mgr.loadShader shd with
          | none => .error "assert failed: rendermesh_data->shader != nullptr"
          | some shader => do
            let pass_mask ←
              match raw.render_pass with
              | some passes =>
                  if passes.all (fun p => p < RenderPass_kCount) then
                    Except.ok (passes.foldl (fun m p => m ||| (1 <<< p)) 0)
                  else .error "assert failed: render_pass < RenderPass_kCount"
              | none => Except.ok (1 <<< RenderPass_kOpaque)
            Except.ok (CompState.writeData r.2 r.1 (fun _ =>
              { mesh_filename := src
                shader_filename := shd
                mesh := some mesh
                shader := some shader
                ignore_culling := raw.ignore_culling
                default_hidden := raw.hidden
                currently_hidden := raw.hidden
                pass_mask := pass_mask
                tint := (1, 1, 1, 1) }))

/-- `RenderMeshComponent::ExportRawData` (rendermesh.cpp:205-245): nullptr
for an unregistered entity and for data with an empty mesh or shader
filename (created programmatically); otherwise a blob carrying both
filenames, the list of pass ids set in `pass_mask`, and the culling flag
(`hidden` is not exported and reads back as the flatbuffer default). -/
def rm_ExportRawData {A : Type} (st : CompState RenderMeshData A)
    (e : Nat) : Option RenderMeshDef :=
  match st.GetComponentData e with
  | none => none
  | some data =>
      if data.mesh_filename = "" ∨ data.shader_filename = "" then none
      else
        some { source_file := some data.mesh_filename
               shader := some data.shader_filename
               render_pass := some ((List.range RenderPass_kCount).filter
                 (fun i => data.pass_mask &&& (1 <<< i) ≠ 0))
               hidden := false
               ignore_culling := data.ignore_culling }

/-! ## PhysicsComponent (physics.h, physics.cpp)

Bullet's `btScalar` values are modelled as rationals (exact arithmetic);
`mathfu::vec3` as a triple of rationals. -/

/-- A 3-component vector (`mathfu::vec3` / `btVector3`). -/
structure Vec3 where
  x : ℚ
  y : ℚ
  z : ℚ
deriving DecidableEq, Repr

/-- Componentwise addition. -/
def Vec3.add (a b : Vec3) : Vec3 := ⟨a.x + b.x, a.y + b.y, a.z + b.z⟩

/-- Componentwise subtraction. -/
def Vec3.sub (a b : Vec3) : Vec3 := ⟨a.x - b.x, a.y - b.y, a.z - b.z⟩

/-- Componentwise maximum (`mathfu::vec3::Max`). -/
def Vec3.max (a b : Vec3) : Vec3 :=
  ⟨Max.max a.x b.x, Max.max a.y b.y, Max.max a.z b.z⟩

/-- Scalar multiple. -/
def Vec3.scale (c : ℚ) (a : Vec3) : Vec3 := ⟨c * a.x, c * a.y, c * a.z⟩

/-- The zero vector (`mathfu::kZeros3f`). -/
def Vec3.zero : Vec3 := ⟨0, 0, 0⟩

/-- The all-ones vector (`mathfu::kOnes3f`). -/
def Vec3.ones : Vec3 := ⟨1, 1, 1⟩

/-- `kMaxPhysicsBodies` (physics.h:31). -/
def kMaxPhysicsBodies : Nat := 5

/-- Modelled from the spec: the generated `BulletCollisionType` enum is
not among the sources.  Its values are bit layers; the export loop in
physics.cpp:271-278 walks the power-of-two layers strictly below
`BulletCollisionType_End`.  A concrete four-layer layout stands in for the
generated constants. -/
def BulletCollisionType_End : Nat := 16

/-- The raycast layer of the modelled collision-type enum (a power of two
below `BulletCollisionType_End`). -/
def BulletCollisionType_Raycast : Nat := 2

/-- The power-of-two layers strictly below `BulletCollisionType_End`, in
the order the export loop of physics.cpp:271-278 visits them. -/
def collisionLayers : List Nat := [1, 2, 4, 8]

/-- The `BulletShapeUnion` member carried by a `BulletShapeDef` blob
(physics.cpp:83-134 lists the cases). -/
inductive BulletShapeUnion where
  | BulletSphereDef (radius : ℚ)
  | BulletBoxDef (half_extents : Vec3)
  | BulletCylinderDef (half_extents : Vec3)
  | BulletCapsuleDef (radius : ℚ) (height : ℚ)
  | BulletConeDef (radius : ℚ) (height : ℚ)
  | BulletStaticPlaneDef (normal : Vec3) (constant : ℚ)
  | BulletNoShapeDef
deriving DecidableEq, Repr

/-- One `BulletShapeDef` table of the blob: shape payload plus body
parameters; optional fields model absent flatbuffer sub-tables. -/
structure BulletShapeDef where
  data_type : BulletShapeUnion
  mass : ℚ
  restitution : ℚ
  offset : Option Vec3
  collision_type : Nat
  collides_with : Option (List Nat)
  user_tag : Option String
deriving DecidableEq, Repr

/-- The `PhysicsDef` blob: a shape list (a null flatbuffer vector and an
empty one act alike in physics.cpp:75) and the kinematic flag. -/
structure PhysicsDef where
  shapes : List BulletShapeDef
  kinematic : Bool
deriving DecidableEq, Repr

/-- Placeholder shape table for out-of-range list reads; the import loop's
index always stays below the list length, so it is never observed. -/
def defaultBulletShapeDef : BulletShapeDef :=
  ⟨.BulletNoShapeDef, 0, 0, none, 0, none, none⟩

/-- The constructed `btCollisionShape` variants physics.cpp creates.  A
capsule stores its half height (`btCapsuleShape(radius, height)` keeps
`height/2`; export reads `2 * getHalfHeight()`, physics.cpp:237); a box or
cylinder reports the half extents it was built from
(`getHalfExtentsWithMargin`). -/
inductive BtCollisionShape where
  | sphere (radius : ℚ)
  | box (half_extents : Vec3)
  | cylinder (half_extents : Vec3)
  | capsule (radius : ℚ) (half_height : ℚ)
  | cone (radius : ℚ) (height : ℚ)
  | staticPlane (normal : Vec3) (constant : ℚ)
  | empty
deriving DecidableEq, Repr

/-- `RigidBodyData` (physics.h:34-42).  The `btRigidBody` is represented
by the observable parameters the source reads back from it: the stored
inverse mass (zero for mass zero, physics.cpp:285-286), the restitution,
and the `CF_KINEMATIC_OBJECT` flag. -/
structure RigidBodyData where
  offset : Vec3
  collision_type : Nat
  collides_with : Nat
  shape : BtCollisionShape
  inv_mass : ℚ
  restitution : ℚ
  kinematic : Bool
  user_tag : String
  should_export : Bool
deriving DecidableEq, Repr

/-- The contents of an untouched `rigid_bodies` array slot (null pointers,
zeroed pod fields); never read while `i < body_count` is maintained. -/
def defaultRigidBodyData : RigidBodyData :=
  ⟨Vec3.zero, 0, 0, .empty, 0, 0, false, "", false⟩

/-- `PhysicsData` (physics.h:45-53): the fixed `rigid_bodies` array
(modelled as a total map on indices; claim C10 is that only indices below
`kMaxPhysicsBodies` are ever populated), the live-body count, and the
enabled flag. -/
structure PhysicsData where
  rigid_bodies : Nat → RigidBodyData
  body_count : Nat
  enabled : Bool

/-- `PhysicsData()` (physics.h:47): zero bodies, disabled. -/
def defaultPhysicsData : PhysicsData :=
  ⟨fun _ => defaultRigidBodyData, 0, false⟩

/-- The body the shape-list loop of `PhysicsComponent::AddFromRawData`
builds for shape `index` (physics.cpp:80-175): the shape from the tagged
union (unknown tags fall to `btEmptyShape`), a rigid body of the blob's
mass (inverse mass zero for mass zero) and restitution, the kinematic flag
forced on every shape but the first unless the blob asks for it, the
offset (zero when absent), the collision type, the OR of the
`collides_with` entries, the user tag (empty when absent), and
`should_export = true`. -/
def convertShapeDef (def_kinematic : Bool) (index : Nat)
    (sd : BulletShapeDef) : RigidBodyData :=
  { shape :=
      match sd.data_type with
      | .BulletSphereDef r => .sphere r
      | .BulletBoxDef he => .box he
      | .BulletCylinderDef he => .cylinder he
      | .BulletCapsuleDef r h => .capsule r (h / 2)
      | .BulletConeDef r h => .cone r h
      | .BulletStaticPlaneDef n c => .staticPlane n c
      | .BulletNoShapeDef => .empty
    inv_mass := if sd.mass = 0 then 0 else 1 / sd.mass
    restitution := sd.restitution
    kinematic := decide (0 < index) || def_kinematic
    offset := sd.offset.getD Vec3.zero
    collision_type := sd.collision_type
    collides_with := (sd.collides_with.getD []).foldl (fun a b => a ||| b) 0
    user_tag := sd.user_tag.getD ""
    should_export := true }

/-- The effect of `PhysicsComponent::AddFromRawData` on the entity's
`PhysicsData` (physics.cpp:70-180): when the blob carries at least one
shape, the list is truncated to the first `kMaxPhysicsBodies` shapes,
`body_count` set to the truncated count and the leading array slots
overwritten; the data is then enabled.  (Adding the rigid bodies to the
Bullet world and `UpdatePhysicsFromTransform` touch external state.) -/
def physicsAddFromRawDataUpdate (d : PhysicsData) (raw : PhysicsDef) :
    PhysicsData :=
  let d₁ :=
    if 0 < raw.shapes.length then
      let shape_count := min raw.shapes.length kMaxPhysicsBodies
      { d with
        body_count := shape_count
        rigid_bodies := fun i =>
          if i < shape_count then
            convertShapeDef raw.kinematic i
              (raw.shapes.getD i defaultBulletShapeDef)
          else d.rigid_bodies i }
    else d
  { d₁ with enabled := true }

/-- `PhysicsComponent::AddFromRawData` at the component level: register
the entity (`AddEntity`; `InitEntity` registers it with
`TransformComponent` through the entity manager, physics.cpp:410-412 — a
different component's state) and update its record from the blob. -/
def phys_AddFromRawData {A : Type} (st : CompState PhysicsData A) (e : Nat)
    (raw : PhysicsDef) : CompState PhysicsData A :=
  CompState.addAndWrite defaultPhysicsData
    (fun d => physicsAddFromRawDataUpdate d raw) st e

/-- The export loop's per-layer decomposition of a `collides_with` mask
(physics.cpp:271-278): the power-of-two layers below
`BulletCollisionType_End` present in the mask, in ascending order. -/
def exportCollidesWith (cw : Nat) : List Nat :=
  collisionLayers.filter (fun layer => cw &&& layer ≠ 0)

/-- The shape table `PhysicsComponent::ExportRawData` writes for one body
(physics.cpp:202-269): the inverse conversion of the constructed shape
(capsule height is twice the stored half height). -/
def exportShapeUnion : BtCollisionShape → BulletShapeUnion
  | .sphere r => .BulletSphereDef r
  | .box he => .BulletBoxDef he
  | .cylinder he => .BulletCylinderDef he
  | .capsule r hh => .BulletCapsuleDef r (2 * hh)
  | .cone r h => .BulletConeDef r h
  | .staticPlane n c => .BulletStaticPlaneDef n c
  | .empty => .BulletNoShapeDef

/-- The `BulletShapeDef` table exported for one body (physics.cpp:271-294):
mass recovered from the stored inverse mass (zero when the inverse is
zero), offset, collision type, decomposed `collides_with`, and the user
tag, all written unconditionally. -/
def exportBody (b : RigidBodyData) : BulletShapeDef :=
  { data_type := exportShapeUnion b.shape
    mass := if b.inv_mass ≠ 0 then 1 / b.inv_mass else 0
    restitution := b.restitution
    offset := some b.offset
    collision_type := b.collision_type
    collides_with := some (exportCollidesWith b.collides_with)
    user_tag := some b.user_tag }

/-- `PhysicsComponent::ExportRawData` on existing data
(physics.cpp:187-310): bodies flagged `should_export` are exported in
order; the blob's kinematic flag is body 0's kinematic-object flag (true
when there are no bodies); when no shape was exported there is nothing to
save and the nullptr sentinel is returned. -/
def physicsExportRawData (d : PhysicsData) : Option PhysicsDef :=
  let kinematic := if 0 < d.body_count then (d.rigid_bodies 0).kinematic
    else true
  let shape_vector := (List.range d.body_count).filterMap (fun i =>
    if (d.rigid_bodies i).should_export then some (exportBody (d.rigid_bodies i))
    else none)
  if shape_vector.length = 0 then none
  else some { shapes := shape_vector, kinematic := kinematic }

/-- `PhysicsComponent::ExportRawData` at the component level
(physics.cpp:182-185 plus the body above): nullptr for an unregistered
entity. -/
def phys_ExportRawData {A : Type} (st : CompState PhysicsData A)
    (e : Nat) : Option PhysicsDef :=
  (st.GetComponentData e).bind physicsExportRawData

/-- The effect of `PhysicsComponent::GenerateRaycastShape` on the entity's
`PhysicsData` (physics.cpp:519-570): return unchanged when the body array
is full (`body_count == kMaxPhysicsBodies`) or some body already collides
with the raycast layer; otherwise append a kinematic zero-mass AABB box
body on the raycast layer at index `body_count` and enable the data.
`mm` is the rendermesh-derived AABB (`GetMaxMinPositionsForEntity`),
`none` when unavailable (both corners then zero). -/
def generateRaycastShapeData (mm : Option (Vec3 × Vec3))
    (result_exportable : Bool) (d : PhysicsData) : PhysicsData :=
  if d.body_count = kMaxPhysicsBodies then d
  else if (List.range d.body_count).any (fun i =>
      (d.rigid_bodies i).collides_with &&& BulletCollisionType_Raycast ≠ 0)
    then d
  else
    let maxmin := mm.getD (Vec3.zero, Vec3.zero)
    let extents := Vec3.max (Vec3.sub maxmin.1 maxmin.2) Vec3.ones
    let body : RigidBodyData :=
      { offset := Vec3.scale (1 / 2) (Vec3.add maxmin.1 maxmin.2)
        collision_type := BulletCollisionType_Raycast
        collides_with := BulletCollisionType_Raycast
        shape := .box (Vec3.scale (1 / 2) extents)
        inv_mass := 0
        restitution := 0
        kinematic := true
        user_tag := ""
        should_export := result_exportable }
    { d with
      rigid_bodies := fun i => if i = d.body_count then body
        else d.rigid_bodies i
      body_count := d.body_count + 1
      enabled := true }

/-- `PhysicsComponent::EnablePhysics` on the data (physics.cpp:418-429):
set the enabled flag (re-adding the bodies to the Bullet world is external
state). -/
def enablePhysicsData (d : PhysicsData) : PhysicsData :=
  if !d.enabled then { d with enabled := true } else d

/-- `PhysicsComponent::DisablePhysics` on the data (physics.cpp:431-440);
`CleanupEntity` calls exactly this (physics.cpp:414-416). -/
def disablePhysicsData (d : PhysicsData) : PhysicsData :=
  if d.enabled then { d with enabled := false } else d

/-- The `PhysicsComponent` operations that touch an entity's
`PhysicsData`. -/
inductive PhysOp where
  | addFromRawData (raw : PhysicsDef)
  | generateRaycastShape (mm : Option (Vec3 × Vec3))
      (result_exportable : Bool)
  | enablePhysics
  | disablePhysics

/-- Apply one operation to the data. -/
def applyPhysOp (d : PhysicsData) : PhysOp → PhysicsData
  | .addFromRawData raw => physicsAddFromRawDataUpdate d raw
  | .generateRaycastShape mm ex => generateRaycastShapeData mm ex d
  | .enablePhysics => enablePhysicsData d
  | .disablePhysics => disablePhysicsData d

/-- Run a sequence of operations on a freshly constructed `PhysicsData`. -/
def runPhysOps (ops : List PhysOp) : PhysicsData :=
  ops.foldl applyPhysOp defaultPhysicsData

/-! ## Two mutually dependent components (for claim C9)

`PhysicsComponent::InitEntity` and `RenderMeshComponent::InitEntity`
register their entity with another component through the entity manager
(physics.cpp:410-412, rendermesh.cpp:42-44).  The worst case the spec's
idempotence requirement guards against is two components whose
`InitEntity` hooks require each other.  The model composes the embedded
`AddEntity` pieces: the registered-branch test, then `addEntityAlloc`,
then the hook — which here is the other component's `AddEntity`.  The
fuel argument only bounds the nesting depth; the claim is that depth 2
already reaches the fixed point. -/

/-- A world of two components (payloads `T` and `U`) whose `InitEntity`
hooks register the entity with each other. -/
structure TwoCompWorld (T U : Type) where
  x : CompState T Unit
  y : CompState U Unit

mutual

/-- `X::AddEntity(e)`: the registered test and allocation steps of
component.h:59-70, with `InitEntity` = `Y::AddEntity(e)`. -/
def addToX {T U : Type} (dx : T) (dy : U) :
    Nat → TwoCompWorld T U → Nat → TwoCompWorld T U
  | 0, w, _ => w
  | fuel + 1, w, e =>
      if w.x.IsRegisteredForComponent e then w
      else
        let a := CompState.addEntityAlloc dx w.x e .kAddToBack
        addToY dx dy fuel { w with x := a.2 } e

/-- `Y::AddEntity(e)`: symmetric, with `InitEntity` = `X::AddEntity(e)`. -/
def addToY {T U : Type} (dx : T) (dy : U) :
    Nat → TwoCompWorld T U → Nat → TwoCompWorld T U
  | 0, w, _ => w
  | fuel + 1, w, e =>
      if w.y.IsRegisteredForComponent e then w
      else
        let a := CompState.addEntityAlloc dy w.y e .kAddToBack
        addToX dx dy fuel { w with y := a.2 } e

end

/-! ## Concrete states used by the witnesses -/

/-- A component state with one record: entity 7 at slot 0, payload 42. -/
def wComp1 : CompState Nat Unit :=
  { component_data := ⟨[some ⟨some 7, 42⟩], [], [0]⟩
    tbl := fun x => if x = 7 then some 0 else none
    aux := () }

/-- The same one-record state carrying an (empty) observation log. -/
def wComp2 : CompState Nat (List (Nat × Option Nat)) :=
  { component_data := ⟨[some ⟨some 7, 42⟩], [], [0]⟩
    tbl := fun x => if x = 7 then some 0 else none
    aux := [] }

/-- A two-record component state: entity 5 at slot 0 (payload 10) and
entity 9 at slot 1 (payload 20). -/
def wComp3 : CompState Nat (List (Nat × Option Nat)) :=
  { component_data := ⟨[some ⟨some 5, 10⟩, some ⟨some 9, 20⟩], [], [0, 1]⟩
    tbl := fun x => if x = 5 then some 0 else if x = 9 then some 1 else none
    aux := [] }

/-- A three-element pool (payloads 10, 20, 30 at slots 0, 1, 2, iteration
order 0, 1, 2). -/
def wPool6 : VectorPool Nat := ⟨[some 10, some 20, some 30], [], [0, 1, 2]⟩

/-- An empty component state over `Nat` payloads. -/
def emptyCompNat : CompState Nat Unit := ⟨⟨[], [], []⟩, fun _ => none, ()⟩

/-- A two-component world with nothing registered. -/
def wWorld9 : TwoCompWorld Nat Nat := ⟨emptyCompNat, emptyCompNat⟩

/-- An empty component state logging `InitEntity` observations. -/
def wComp9 : CompState Nat (List (Bool × Option Nat)) :=
  ⟨⟨[], [], []⟩, fun _ => none, []⟩

/-- A graph-component state: entity 3 registered with one graph
(`"a.graph"`, initialized state). -/
def wGraph : CompState GraphData Unit :=
  { component_data := ⟨[some ⟨some 3, ⟨[⟨"a.graph", some ()⟩]⟩⟩], [], [0]⟩
    tbl := fun x => if x = 3 then some 0 else none
    aux := () }

/-- A graph-component state: entity 0 registered programmatically (as
`GetCreateBroadcaster` does, graph.cpp:29-36), with no graphs and no
backing filename. -/
def wGraphEmpty : CompState GraphData Unit :=
  { component_data := ⟨[some ⟨some 0, ⟨[]⟩⟩], [], [0]⟩
    tbl := fun x => if x = 0 then some 0 else none
    aux := () }

/-- A rendermesh-component state with nothing registered. -/
def wRMState : CompState RenderMeshData Unit := ⟨⟨[], [], []⟩, fun _ => none, ()⟩

/-- A rendermesh record created programmatically: no backing filenames. -/
def wRMProgrammatic : CompState RenderMeshData Unit :=
  { component_data :=
      ⟨[some ⟨some 4, { defaultRenderMeshData with currently_hidden := true }⟩],
        [], [0]⟩
    tbl := fun x => if x = 4 then some 0 else none
    aux := () }

/-- An asset manager whose loads always succeed. -/
def wAssetMgr : AssetMgr := ⟨fun s => some s, fun s => some s⟩

/-- A physics-component state with nothing registered. -/
def wPhysState : CompState PhysicsData Unit := ⟨⟨[], [], []⟩, fun _ => none, ()⟩

/-- A graph-component state with nothing registered. -/
def wGraphState : CompState GraphData Unit := ⟨⟨[], [], []⟩, fun _ => none, ()⟩

/-- A `RenderMeshDef` blob with no `source_file` (structurally invalid for
`RenderMeshComponent`). -/
def badRenderMeshDef : RenderMeshDef := ⟨none, some "shaders/x", none, false, false⟩

/-- A one-shape physics blob: a sphere of radius 2, mass 3, restitution
1/2, no offset, collision type 1, colliding with layers 1 and 4, no tag. -/
def wPhysDef : PhysicsDef :=
  ⟨[⟨.BulletSphereDef 2, 3, 1 / 2, none, 1, some [1, 4], none⟩], false⟩

/-- A physics-component state holding, for entity 6, exactly the data
that importing `wPhysDef` produces. -/
def wPhysImported : CompState PhysicsData Unit :=
  { component_data :=
      ⟨[some ⟨some 6, physicsAddFromRawDataUpdate defaultPhysicsData wPhysDef⟩],
        [], [0]⟩
    tbl := fun x => if x = 6 then some 0 else none
    aux := () }

/-- A physics blob with seven box shapes (more than `kMaxPhysicsBodies`). -/
def wPhysDef7 : PhysicsDef :=
  ⟨List.replicate 7 ⟨.BulletBoxDef ⟨1, 1, 1⟩, 0, 0, none, 1, none, none⟩, true⟩

/-! ## Helper lemmas -/

theorem getD_isSome_lt {T : Type} {l : List (Option T)} {i : Nat}
    (h : (l.getD i none).isSome) : i < l.length := by
  by_contra hge
  push_neg at hge
  rw [List.getD_eq_default _ _ hge] at h
  simp at h

theorem getD_set_self {T : Type} (l : List (Option T)) (i : Nat)
    (v : Option T) (h : i < l.length) : (l.set i v).getD i none = v := by
  simp [List.getD_eq_getElem?_getD, List.getElem?_set, h]

theorem getD_set_ne {T : Type} (l : List (Option T)) (i j : Nat)
    (v : Option T) (h : i ≠ j) : (l.set i v).getD j none = l.getD j none := by
  simp [List.getD_eq_getElem?_getD, List.getElem?_set, h]

theorem getD_append_singleton_ne {T : Type} (l : List (Option T))
    (v : Option T) (j : Nat) (h : j ≠ l.length) :
    (l ++ [v]).getD j none = l.getD j none := by
  rcases Nat.lt_or_ge j l.length with hlt | hge
  · exact List.getD_append _ _ _ _ hlt
  · have hgt : l.length < j := lt_of_le_of_ne hge (fun hh => h hh.symm)
    rw [List.getD_eq_default _ _ (by simp; omega),
      List.getD_eq_default _ _ (by omega)]

namespace CompState

/-- If an entity's index-table entry points at an occupied slot, the
already-registered branch of `AddEntity` returns a pointer to that slot
and leaves the whole component state untouched. -/
theorem addEntity_registered {T A : Type} (ih : Hook T A) (dflt : T)
    (st : CompState T A) (e i : Nat) (cd : ComponentData T)
    (loc : AllocationLocation)
    (hreg : st.tbl e = some i)
    (hslot : st.component_data.GetElementData i = some cd) :
    AddEntity ih dflt st e loc = (some i, st) := by
  have hlt : i < st.component_data.slots.length :=
    getD_isSome_lt (l := st.component_data.slots) (i := i)
      (by simp [VectorPool.GetElementData] at hslot; simp [VectorPool.GetElementData, hslot])
  have hszle : ¬ st.component_data.Size ≤ i := by
    simp [VectorPool.Size]; omega
  unfold AddEntity
  rw [if_pos (by simp [IsRegisteredForComponent, hreg])]
  simp [GetComponentDataPtr, GetComponentDataIndex, hreg, hszle, hslot]

/-- Companion to `addEntity_registered`: the data the returned pointer
denotes is the existing record's contents. -/
theorem getComponentData_of_slot {T A : Type}
    (st : CompState T A) (e i : Nat) (cd : ComponentData T)
    (hreg : st.tbl e = some i)
    (hslot : st.component_data.GetElementData i = some cd) :
    st.GetComponentData e = some cd.data := by
  have hlt : i < st.component_data.slots.length :=
    getD_isSome_lt (l := st.component_data.slots) (i := i)
      (by simp [VectorPool.GetElementData] at hslot; simp [VectorPool.GetElementData, hslot])
  have hszle : ¬ st.component_data.Size ≤ i := by
    simp [VectorPool.Size]; omega
  simp [GetComponentData, GetComponentDataIndex, hreg, hszle,
    GetComponentDataAt, hslot]

/-- Characterization of the allocation steps of `AddEntity` on a pool
whose free list is sane (entries in range and free): the entity's table
entry now names the fresh slot, which holds a default record back-pointing
to the entity; every other table entry and every other slot — in
particular every occupied one — is untouched; the backing array never
shrinks and the iteration order grows by exactly one. -/
theorem addEntityAlloc_spec {T A : Type} (dflt : T) (st : CompState T A)
    (e : Nat) (loc : AllocationLocation)
    (hfree_lt : ∀ i ∈ st.component_data.freeList,
      i < st.component_data.slots.length)
    (hfree_free : ∀ i ∈ st.component_data.freeList,
      st.component_data.isOccupied i = false) :
    (addEntityAlloc dflt st e loc).2.tbl e
      = some (addEntityAlloc dflt st e loc).1 ∧
    (∀ e', e' ≠ e → (addEntityAlloc dflt st e loc).2.tbl e' = st.tbl e') ∧
    (addEntityAlloc dflt st e loc).2.component_data.GetElementData
      (addEntityAlloc dflt st e loc).1 = some ⟨some e, dflt⟩ ∧
    (∀ j, j ≠ (addEntityAlloc dflt st e loc).1 →
      (addEntityAlloc dflt st e loc).2.component_data.GetElementData j
        = st.component_data.GetElementData j) ∧
    (∀ j, st.component_data.isOccupied j = true →
      j ≠ (addEntityAlloc dflt st e loc).1) ∧
    st.component_data.Size
      ≤ (addEntityAlloc dflt st e loc).2.component_data.Size ∧
    (addEntityAlloc dflt st e loc).2.component_data.order.length
      = st.component_data.order.length + 1 ∧
    (addEntityAlloc dflt st e loc).2.aux = st.aux := by
  rcases hfl : st.component_data.freeList with _ | ⟨idx, rest⟩
  · have hix : (addEntityAlloc dflt st e loc).1
        = st.component_data.slots.length := by
      simp [addEntityAlloc, VectorPool.GetNewElement, hfl]
    refine ⟨?_, ?_, ?_, ?_, ?_, ?_, ?_, ?_⟩
    · simp [addEntityAlloc, VectorPool.GetNewElement, hfl,
        SetComponentDataIndex]
    · intro e' he'
      simp [addEntityAlloc, VectorPool.GetNewElement, hfl,
        SetComponentDataIndex, he']
    · simp [addEntityAlloc, VectorPool.GetNewElement, hfl,
        SetComponentDataIndex, VectorPool.setElementData,
        VectorPool.GetElementData, List.getElem?_concat_length]
    · intro j hj
      rw [hix] at hj
      simp [addEntityAlloc, VectorPool.GetNewElement, hfl,
        SetComponentDataIndex, VectorPool.setElementData,
        VectorPool.GetElementData]
      rw [← List.getD_eq_getElem?_getD, ← List.getD_eq_getElem?_getD]
      exact getD_append_singleton_ne _ _ _ hj
    · intro j hocc
      rw [hix]
      have := getD_isSome_lt (l := st.component_data.slots) (i := j)
        (by simpa [VectorPool.isOccupied, VectorPool.GetElementData]
          using hocc)
      omega
    · simp [addEntityAlloc, VectorPool.GetNewElement, hfl,
        SetComponentDataIndex, VectorPool.setElementData, VectorPool.Size]
    · cases loc <;>
        simp [addEntityAlloc, VectorPool.GetNewElement, hfl,
          SetComponentDataIndex, VectorPool.setElementData]
    · simp [addEntityAlloc, VectorPool.GetNewElement, hfl,
        SetComponentDataIndex, VectorPool.setElementData]
  · have hix : (addEntityAlloc dflt st e loc).1 = idx := by
      simp [addEntityAlloc, VectorPool.GetNewElement, hfl]
    have hidxlt : idx < st.component_data.slots.length :=
      hfree_lt idx (by rw [hfl]; exact List.mem_cons_self _ _)
    refine ⟨?_, ?_, ?_, ?_, ?_, ?_, ?_, ?_⟩
    · simp [addEntityAlloc, VectorPool.GetNewElement, hfl,
        SetComponentDataIndex]
    · intro e' he'
      simp [addEntityAlloc, VectorPool.GetNewElement, hfl,
        SetComponentDataIndex, he']
    · simp [addEntityAlloc, VectorPool.GetNewElement, hfl,
        SetComponentDataIndex, VectorPool.setElementData,
        VectorPool.GetElementData, List.getElem?_set_self hidxlt]
    · intro j hj
      rw [hix] at hj
      simp [addEntityAlloc, VectorPool.GetNewElement, hfl,
        SetComponentDataIndex, VectorPool.setElementData,
        VectorPool.GetElementData]
      rw [← List.getD_eq_getElem?_getD, ← List.getD_eq_getElem?_getD]
      exact getD_set_ne _ _ _ _ (fun h => hj h.symm)
    · intro j hocc
      rw [hix]
      intro hje
      subst hje
      have := hfree_free j (by rw [hfl]; exact List.mem_cons_self _ _)
      rw [hocc] at this
      exact Bool.noConfusion this
    · simp [addEntityAlloc, VectorPool.GetNewElement, hfl,
        SetComponentDataIndex, VectorPool.setElementData, VectorPool.Size]
    · cases loc <;>
        simp [addEntityAlloc, VectorPool.GetNewElement, hfl,
          SetComponentDataIndex, VectorPool.setElementData]
    · simp [addEntityAlloc, VectorPool.GetNewElement, hfl,
        SetComponentDataIndex, VectorPool.setElementData]

/-- The effect of the shared `AddFromRawData` shape on a well-formed
state: the entity ends registered, its data is `f` of the record's prior
contents (default-constructed when freshly registered), and every other
entity's table entry and data are untouched. -/
theorem addAndWrite_spec {T A : Type} (dflt : T) (f : T → T)
    (st : CompState T A) (e : Nat) (hwf : StWF st) :
    (addAndWrite dflt f st e).IsRegisteredForComponent e = true ∧
    (addAndWrite dflt f st e).GetComponentData e
      = some (f ((st.GetComponentData e).getD dflt)) ∧
    (∀ e', e' ≠ e → (addAndWrite dflt f st e).tbl e' = st.tbl e' ∧
      (addAndWrite dflt f st e).GetComponentData e'
        = st.GetComponentData e') := by
  by_cases hreg : ∃ i, st.tbl e = some i
  · obtain ⟨i, hi⟩ := hreg
    obtain ⟨hmem, cd, hslot, hent⟩ := hwf.tbl_sound e i hi
    have hr : AddEntityBack (fun s _ => s) dflt st e = (some i, st) :=
      addEntity_registered _ dflt st e i cd .kAddToBack hi hslot
    have hlt : i < st.component_data.slots.length :=
      getD_isSome_lt (l := st.component_data.slots) (i := i)
        (by simp [VectorPool.GetElementData] at hslot
            simp [VectorPool.GetElementData, hslot])
    have hslot' : (st.component_data.slots[i]?).getD none = some cd := by
      simpa [VectorPool.GetElementData, List.getD_eq_getElem?_getD]
        using hslot
    have hdata := getComponentData_of_slot st e i cd hi hslot
    refine ⟨?_, ?_, ?_⟩
    · simp [addAndWrite, hr, writeData, IsRegisteredForComponent, hi]
    · simp [addAndWrite, hr, writeData, GetComponentData,
        GetComponentDataIndex, GetComponentDataAt, hi, hdata,
        VectorPool.Size, VectorPool.GetElementData,
        List.getD_eq_getElem?_getD, hslot', List.getElem?_set_self hlt]
      exact ⟨hlt, by rw [if_neg (by omega)]; rfl⟩
    · intro e' he'
      constructor
      · simp [addAndWrite, hr, writeData]
      · rcases he'' : st.tbl e' with _ | j
        · simp [addAndWrite, hr, writeData, GetComponentData,
            GetComponentDataIndex, he'']
        · obtain ⟨hmem', cd', hslot'', hent'⟩ := hwf.tbl_sound e' j he''
          have hji : j ≠ i := by
            intro hh
            subst hh
            rw [hslot''] at hslot
            cases hslot
            rw [hent'] at hent
            cases hent
            exact he' rfl
          simp [addAndWrite, hr, writeData, GetComponentData,
            GetComponentDataIndex, he'', GetComponentDataAt,
            VectorPool.Size, VectorPool.GetElementData,
            List.getD_eq_getElem?_getD, List.getElem?_set_ne
              (fun h => hji h.symm)]
  · push_neg at hreg
    have hun : st.tbl e = none := by
      rcases h : st.tbl e with _ | i
      · rfl
      · exact absurd h (hreg i)
    have hspec := addEntityAlloc_spec dflt st e .kAddToBack hwf.free_lt
      hwf.free_free
    obtain ⟨htbl_e, htbl_ne, hnew, hold, hoccne, hsz, _horder, _haux⟩ := hspec
    have hr : AddEntityBack (fun s _ => s) dflt st e
        = ((addEntityAlloc dflt st e .kAddToBack).1,
           (addEntityAlloc dflt st e .kAddToBack).2).map some id := by
      simp [AddEntityBack, AddEntity, IsRegisteredForComponent, hun,
        Prod.map]
    have hr' : AddEntityBack (fun s _ => s) dflt st e
        = (some (addEntityAlloc dflt st e .kAddToBack).1,
           (addEntityAlloc dflt st e .kAddToBack).2) := by
      simpa [Prod.map] using hr
    have hlt : (addEntityAlloc dflt st e .kAddToBack).1
        < (addEntityAlloc dflt st e .kAddToBack).2.component_data.slots.length :=
      getD_isSome_lt
        (l := (addEntityAlloc dflt st e .kAddToBack).2.component_data.slots)
        (i := (addEntityAlloc dflt st e .kAddToBack).1)
        (by simp [VectorPool.GetElementData] at hnew
            simp [VectorPool.GetElementData, hnew])
    have hnew' : ((addEntityAlloc dflt st e
          .kAddToBack).2.component_data.slots[(addEntityAlloc dflt st e
          .kAddToBack).1]?).getD none = some ⟨some e, dflt⟩ := by
      simpa [VectorPool.GetElementData, List.getD_eq_getElem?_getD]
        using hnew
    refine ⟨?_, ?_, ?_⟩
    · simp [addAndWrite, hr', writeData, IsRegisteredForComponent, htbl_e]
    · simp [addAndWrite, hr', writeData, GetComponentData,
        GetComponentDataIndex, htbl_e, GetComponentDataAt,
        VectorPool.Size, VectorPool.GetElementData,
        List.getD_eq_getElem?_getD, hnew', List.getElem?_set_self hlt,
        hun]
      omega
    · intro e' he'
      constructor
      · simp [addAndWrite, hr', writeData, htbl_ne e' he']
      · rcases he'' : st.tbl e' with _ | j
        · simp [addAndWrite, hr', writeData, GetComponentData,
            GetComponentDataIndex, htbl_ne e' he', he'']
        · obtain ⟨hmem', cd', hslot'', hent'⟩ := hwf.tbl_sound e' j he''
          have hocc' : st.component_data.isOccupied j = true := by
            simp [VectorPool.isOccupied, hslot'']
          have hja : j ≠ (addEntityAlloc dflt st e .kAddToBack).1 :=
            hoccne j hocc'
          have hjlt : j < st.component_data.slots.length :=
            getD_isSome_lt (l := st.component_data.slots) (i := j)
              (by simp [VectorPool.GetElementData] at hslot''
                  simp [VectorPool.GetElementData, hslot''])
          have hslotkeep : ((addEntityAlloc dflt st e
              .kAddToBack).2.component_data.slots[j]?).getD none
              = (st.component_data.slots[j]?).getD none := by
            simpa [VectorPool.GetElementData, List.getD_eq_getElem?_getD]
              using hold j hja
          have hlen2 : st.component_data.slots.length ≤ (addEntityAlloc dflt
              st e .kAddToBack).2.component_data.slots.length := by
            simpa [VectorPool.Size] using hsz
          have hnle1 : ¬ st.component_data.slots.length ≤ j := by omega
          have hnle2 : ¬ (addEntityAlloc dflt st e
              .kAddToBack).2.component_data.slots.length ≤ j := by omega
          simp [addAndWrite, hr', writeData, GetComponentData,
            GetComponentDataIndex, htbl_ne e' he', he'', GetComponentDataAt,
            VectorPool.GetElementData, List.getD_eq_getElem?_getD,
            List.getElem?_set_ne (fun h => hja h.symm), VectorPool.Size,
            hslotkeep, hnle1, hnle2]

end CompState

/-- The empty component state is well formed. -/
theorem emptyStWF {T A : Type} (aux : A) :
    CompState.StWF (⟨⟨[], [], []⟩, fun _ => none, aux⟩ : CompState T A) := by
  refine ⟨?_, ?_, ?_, ?_, ?_, ?_⟩ <;>
    simp [VectorPool.isOccupied, VectorPool.GetElementData]

/-! ## Claim theorems -/

/-- **C1.** For every entity `e` already registered with a `Component<T>`
(its index-table entry names an occupied pool slot), a second call to
`AddEntity(e)` — under any `InitEntity` hook and either placement — and
likewise `AddEntityGenerically(e)` return a pointer to the existing data
record with the same contents and perform no new pool allocation: the
state, hence the pool size and every other entity's data, is unchanged. -/
theorem C1_addEntity_idempotent {T A : Type} (ih ih' : Hook T A)
    (dflt dflt' : T) (st : CompState T A) (e i : Nat)
    (cd : ComponentData T)
    (hreg : st.tbl e = some i)
    (hslot : st.component_data.GetElementData i = some cd) :
    (∀ loc, CompState.AddEntity ih dflt st e loc = (some i, st)) ∧
    st.GetComponentData e = some cd.data ∧
    CompState.AddEntityGenerically ih' dflt' st e = st ∧
    (∀ loc,
      ((CompState.AddEntity ih dflt st e loc).2).component_data.Size
        = st.component_data.Size ∧
      ∀ e', ((CompState.AddEntity ih dflt st e loc).2).GetComponentData e'
        = st.GetComponentData e') := by
  have hadd := fun loc =>
    CompState.addEntity_registered ih dflt st e i cd loc hreg hslot
  refine ⟨hadd, CompState.getComponentData_of_slot st e i cd hreg hslot, ?_, ?_⟩
  · have h := CompState.addEntity_registered ih' dflt' st e i cd .kAddToBack
      hreg hslot
    simp [CompState.AddEntityGenerically, CompState.AddEntityBack, h]
  · intro loc
    rw [hadd loc]
    exact ⟨rfl, fun _ => rfl⟩

/-- Witness for C1: in the one-record state, re-adding entity 7 returns a
pointer to slot 0 and the state unchanged, and the data there reads 42. -/
theorem C1_witness :
    CompState.AddEntity (fun s _ => s) 0 wComp1 7 .kAddToFront
      = (some 0, wComp1) ∧
    wComp1.GetComponentData 7 = some 42 := by
  have h := C1_addEntity_idempotent (fun s _ => s) (fun s _ => s) 0 0 wComp1
    7 0 ⟨some 7, (42 : Nat)⟩ rfl rfl
  exact ⟨h.1 .kAddToFront, h.2.1⟩

/-- **C2.** For an entity `e` registered at an occupied slot `i` (with the
record's back-pointer naming `e`), `RemoveEntity(e)` under the observing
`CleanupEntity` hook appends exactly one observation to the log — made
while the about-to-be-removed record was still readable through
`GetComponentData` — then frees the slot and clears `e`'s index-table
entry for this type.  Other entities' table entries and slots are
untouched.  The iterator-based variant produces the identical state and
additionally returns the iterator to the next live element. -/
theorem C2_removeEntity_cleanup_once_before_free {T : Type}
    (st : CompState T (List (Nat × Option T))) (e i : Nat)
    (cd : ComponentData T)
    (hreg : st.tbl e = some i)
    (hslot : st.component_data.GetElementData i = some cd)
    (hback : cd.entity = some e) :
    (CompState.RemoveEntity (CompState.obsCleanup T) st e).aux
      = st.aux ++ [(e, some cd.data)] ∧
    (CompState.RemoveEntity (CompState.obsCleanup T) st e).tbl e = none ∧
    ((CompState.RemoveEntity (CompState.obsCleanup T) st e)
      |>.component_data.GetElementData i) = none ∧
    (∀ e', e' ≠ e →
      (CompState.RemoveEntity (CompState.obsCleanup T) st e).tbl e'
        = st.tbl e') ∧
    (∀ j, j ≠ i →
      ((CompState.RemoveEntity (CompState.obsCleanup T) st e)
        |>.component_data.GetElementData j)
        = st.component_data.GetElementData j) ∧
    (CompState.RemoveEntity (CompState.obsCleanup T) st e).component_data.order
      = st.component_data.order.erase i ∧
    CompState.RemoveEntityIter (CompState.obsCleanup T) st i
      = (CompState.RemoveEntity (CompState.obsCleanup T) st e,
         st.component_data.nextOf i) := by
  have hlt : i < st.component_data.slots.length :=
    getD_isSome_lt (l := st.component_data.slots) (i := i)
      (by simp [VectorPool.GetElementData] at hslot
          simp [VectorPool.GetElementData, hslot])
  have hdata := CompState.getComponentData_of_slot st e i cd hreg hslot
  have hocc : st.component_data.isOccupied i = true := by
    simp [VectorPool.isOccupied, hslot]
  have hslot' : (st.component_data.slots[i]?).getD none = some cd := by
    simpa [VectorPool.GetElementData, List.getD_eq_getElem?_getD] using hslot
  refine ⟨?_, ?_, ?_, ?_, ?_, ?_, ?_⟩
  · simp [CompState.RemoveEntity, CompState.RemoveEntityInternal,
      CompState.obsCleanup, CompState.SetComponentDataIndex,
      CompState.GetComponentDataIndex, hreg, hdata]
  · simp [CompState.RemoveEntity, CompState.RemoveEntityInternal,
      CompState.obsCleanup, CompState.SetComponentDataIndex]
  · simp [CompState.RemoveEntity, CompState.RemoveEntityInternal,
      CompState.obsCleanup, CompState.SetComponentDataIndex,
      CompState.GetComponentDataIndex, hreg, VectorPool.FreeElement, hocc,
      VectorPool.GetElementData, List.getElem?_set_self hlt]
  · intro e' he'
    simp [CompState.RemoveEntity, CompState.RemoveEntityInternal,
      CompState.obsCleanup, CompState.SetComponentDataIndex, he']
  · intro j hj
    simp [CompState.RemoveEntity, CompState.RemoveEntityInternal,
      CompState.obsCleanup, CompState.SetComponentDataIndex,
      CompState.GetComponentDataIndex, hreg, VectorPool.FreeElement, hocc,
      VectorPool.GetElementData,
      List.getElem?_set_ne (fun h => hj h.symm)]
  · simp [CompState.RemoveEntity, CompState.RemoveEntityInternal,
      CompState.obsCleanup, CompState.SetComponentDataIndex,
      CompState.GetComponentDataIndex, hreg, VectorPool.FreeElement, hocc]
  · simp [CompState.RemoveEntity, CompState.RemoveEntityIter,
      CompState.RemoveEntityInternal, CompState.obsCleanup,
      CompState.SetComponentDataIndex, CompState.GetComponentDataIndex,
      hreg, hslot', hback, VectorPool.FreeElementIter, VectorPool.FreeElement,
      hocc, VectorPool.GetElementData]

/-- Witness for C2: removing entity 7 from the one-record state logs the
single observation `(7, some 42)`, clears the table entry, frees slot 0,
and the iterator variant returns the `end` iterator. -/
theorem C2_witness :
    (CompState.RemoveEntity (CompState.obsCleanup Nat) wComp2 7).aux
      = [(7, some 42)] ∧
    (CompState.RemoveEntity (CompState.obsCleanup Nat) wComp2 7).tbl 7
      = none ∧
    CompState.RemoveEntityIter (CompState.obsCleanup Nat) wComp2 0
      = (CompState.RemoveEntity (CompState.obsCleanup Nat) wComp2 7, none) := by
  have h := C2_removeEntity_cleanup_once_before_free wComp2 7 0
    ⟨some 7, (42 : Nat)⟩ rfl rfl rfl
  exact ⟨h.1, h.2.1, h.2.2.2.2.2.2⟩

/-- **C3, counterexample.** `RenderMeshComponent::AddFromRawData` applied
to a blob with no `source_file` — a blob structurally invalid for this
component — does not "leave the entity unregistered, never throwing": it
fails the `assert` at rendermesh.cpp:168 (an abort), rather than declining
to register.  Concretely, on the empty component state and entity 1 the
embedded computation ends in the assertion error, not in a state. -/
theorem C3_counterexample :
    rm_AddFromRawData (some wAssetMgr) wRMState 1 badRenderMeshDef
      = Except.error
          "assert failed: rendermesh_def->source_file() != nullptr" := by
  rfl

/-- **C3, amended.** No component in the sources declines registration on
an invalid blob.  (a) `RenderMeshComponent::AddFromRawData` treats a blob
lacking `source_file` or `shader` as an assertion failure (abort), not a
silent decline.  (b)(c) `PhysicsComponent` and `GraphComponent` register
the entity for *every* blob; on a well-formed state, no other entity's
table entry or data is affected. -/
theorem C3_addFromRawData_no_decline {A : Type} :
    (∀ (am : Option AssetMgr) (st : CompState RenderMeshData A) (e : Nat)
      (raw : RenderMeshDef), raw.source_file = none ∨ raw.shader = none →
        ∃ msg, rm_AddFromRawData am st e raw = Except.error msg) ∧
    (∀ (st : CompState PhysicsData A) (e : Nat) (raw : PhysicsDef),
      CompState.StWF st →
        (phys_AddFromRawData st e raw).IsRegisteredForComponent e = true ∧
        ∀ e', e' ≠ e →
          (phys_AddFromRawData st e raw).tbl e' = st.tbl e' ∧
          (phys_AddFromRawData st e raw).GetComponentData e'
            = st.GetComponentData e') ∧
    (∀ (st : CompState GraphData A) (e : Nat) (raw : GraphDef),
      CompState.StWF st →
        (graph_AddFromRawData st e raw).IsRegisteredForComponent e = true ∧
        ∀ e', e' ≠ e →
          (graph_AddFromRawData st e raw).tbl e' = st.tbl e' ∧
          (graph_AddFromRawData st e raw).GetComponentData e'
            = st.GetComponentData e') := by
  refine ⟨?_, ?_, ?_⟩
  · intro am st e raw hbad
    rcases am with _ | mgr
    · exact ⟨_, rfl⟩
    rcases hsf : raw.source_file with _ | src
    · exact ⟨"assert failed: rendermesh_def->source_file() != nullptr",
        by simp [rm_AddFromRawData, hsf]⟩
    rcases hsh : raw.shader with _ | shd
    · exact ⟨"assert failed: rendermesh_def->shader() != nullptr",
        by simp [rm_AddFromRawData, hsf, hsh]⟩
    rcases hbad with h | h
    · rw [hsf] at h; cases h
    · rw [hsh] at h; cases h
  · intro st e raw hwf
    have h := CompState.addAndWrite_spec defaultPhysicsData
      (fun d => physicsAddFromRawDataUpdate d raw) st e hwf
    exact ⟨h.1, h.2.2⟩
  · intro st e raw hwf
    have h := CompState.addAndWrite_spec defaultGraphData
      (fun _ => (⟨(raw.filename_list.getD []).map (fun f => ⟨f, some ()⟩)⟩ :
        GraphData)) st e hwf
    exact ⟨h.1, h.2.2⟩

/-- Witness for C3 (amended): the invalid rendermesh blob aborts on the
empty state; physics and graph register entities 2 and 3 for concrete
blobs on their empty states. -/
theorem C3_witness :
    (∃ msg, rm_AddFromRawData (some wAssetMgr) wRMState 1 badRenderMeshDef
      = Except.error msg) ∧
    (phys_AddFromRawData wPhysState 2 wPhysDef).IsRegisteredForComponent 2
      = true ∧
    (graph_AddFromRawData wGraphState 3 ⟨none⟩).IsRegisteredForComponent 3
      = true := by
  have h := C3_addFromRawData_no_decline (A := Unit)
  exact ⟨h.1 (some wAssetMgr) wRMState 1 badRenderMeshDef (Or.inl rfl),
    (h.2.1 wPhysState 2 wPhysDef (emptyStWF ())).1,
    (h.2.2 wGraphState 3 ⟨none⟩ (emptyStWF ())).1⟩

/-- Decomposing a `collides_with` mask into export layers and OR-ing them
back on import reproduces the mask, for masks within the enum's layers. -/
theorem exportCollidesWith_roundtrip (cw : Nat)
    (h : cw < BulletCollisionType_End) :
    (exportCollidesWith cw).foldl (fun a b => a ||| b) 0 = cw := by
  rw [BulletCollisionType_End] at h
  interval_cases cw <;> decide

/-- OR-folding layer values below `BulletCollisionType_End` stays below
it. -/
theorem foldl_lor_lt (l : List Nat) (acc : Nat)
    (hacc : acc < BulletCollisionType_End)
    (h : ∀ c ∈ l, c < BulletCollisionType_End) :
    l.foldl (fun a b => a ||| b) acc < BulletCollisionType_End := by
  induction l generalizing acc with
  | nil => simpa using hacc
  | cons c cs ih =>
      refine ih _ ?_ (fun c' hc' => h c' (List.mem_cons_of_mem _ hc'))
      have h1 : acc < 2 ^ 4 := by
        simpa [BulletCollisionType_End] using hacc
      have h2 : c < 2 ^ 4 := by
        simpa [BulletCollisionType_End] using h c (List.mem_cons_self _ _)
      simpa [BulletCollisionType_End] using Nat.or_lt_two_pow h1 h2

/-- Re-importing the exported table of a body built by the import loop
reproduces the body, when the blob's collision layers lie below
`BulletCollisionType_End`. -/
theorem convertShapeDef_export_roundtrip (k : Bool) (i : Nat)
    (sd : BulletShapeDef)
    (hcw : ∀ c ∈ sd.collides_with.getD [], c < BulletCollisionType_End) :
    convertShapeDef k i (exportBody (convertShapeDef k i sd))
      = convertShapeDef k i sd := by
  have hfold : (sd.collides_with.getD []).foldl (fun a b => a ||| b) 0
      < BulletCollisionType_End :=
    foldl_lor_lt _ 0 (by rw [BulletCollisionType_End]; omega) hcw
  have h1 := exportCollidesWith_roundtrip _ hfold
  obtain ⟨dt, sdm, sdr, sdo, sdc, sdw, sdt⟩ := sd
  by_cases hm : sdm = 0
  · cases dt <;>
      simp [convertShapeDef, exportBody, exportShapeUnion, hm,
        one_div_one_div, h1]
  · cases dt <;>
      simp [convertShapeDef, exportBody, exportShapeUnion, hm,
        one_div_ne_zero hm, one_div_one_div, h1]

theorem getD_mem_of_lt {α : Type} (l : List α) (i : Nat) (d : α)
    (h : i < l.length) : l.getD i d ∈ l := by
  rw [List.getD_eq_getElem?_getD]
  simp [List.getElem?_eq_getElem h]

/-- Data-level round trip for `PhysicsComponent`: importing a blob with at
least one shape (collision layers within the enum), exporting the
resulting data, and re-importing the exported blob reproduces the data
exactly.  The exported blob is the canonical form of the (truncated)
original. -/
theorem physicsRoundtripData (raw : PhysicsDef)
    (hne : 0 < raw.shapes.length)
    (hcw : ∀ sd ∈ raw.shapes, ∀ c ∈ sd.collides_with.getD [],
      c < BulletCollisionType_End) :
    physicsExportRawData (physicsAddFromRawDataUpdate defaultPhysicsData raw)
      = some
        ⟨(List.range (min raw.shapes.length kMaxPhysicsBodies)).map
          (fun i => exportBody (convertShapeDef raw.kinematic i
            (raw.shapes.getD i defaultBulletShapeDef))), raw.kinematic⟩ ∧
    physicsAddFromRawDataUpdate defaultPhysicsData
        ⟨(List.range (min raw.shapes.length kMaxPhysicsBodies)).map
          (fun i => exportBody (convertShapeDef raw.kinematic i
            (raw.shapes.getD i defaultBulletShapeDef))), raw.kinematic⟩
      = physicsAddFromRawDataUpdate defaultPhysicsData raw := by
  set count := min raw.shapes.length kMaxPhysicsBodies with hcountdef
  have hc0 : 0 < count := by
    rw [hcountdef]
    simp [kMaxPhysicsBodies]
    omega
  have hcle : count ≤ raw.shapes.length := Nat.min_le_left _ _
  have hcle5 : count ≤ kMaxPhysicsBodies := Nat.min_le_right _ _
  have hd1 : physicsAddFromRawDataUpdate defaultPhysicsData raw
      = { rigid_bodies := fun i => if i < count then
            convertShapeDef raw.kinematic i
              (raw.shapes.getD i defaultBulletShapeDef)
            else defaultRigidBodyData
          body_count := count
          enabled := true } := by
    simp [physicsAddFromRawDataUpdate, hne, defaultPhysicsData]
    funext i
    rw [hcountdef]
    simp [Nat.lt_min]
  set g : Nat → BulletShapeDef := fun i =>
    exportBody (convertShapeDef raw.kinematic i
      (raw.shapes.getD i defaultBulletShapeDef)) with hgdef
  have hvec : (List.range count).filterMap (fun i =>
      if ((if i < count then convertShapeDef raw.kinematic i
            (raw.shapes.getD i defaultBulletShapeDef)
          else defaultRigidBodyData)).should_export then
        some (exportBody ((if i < count then convertShapeDef raw.kinematic i
            (raw.shapes.getD i defaultBulletShapeDef)
          else defaultRigidBodyData)))
      else none) = (List.range count).map g := by
    rw [List.filterMap_congr (g := fun i => some (g i))]
    · exact congrFun (List.filterMap_eq_map g) _
    · intro i hi
      have hic : i < count := List.mem_range.mp hi
      simp [hic, convertShapeDef, hgdef]
  have hexp : physicsExportRawData
      (physicsAddFromRawDataUpdate defaultPhysicsData raw)
      = some ⟨(List.range count).map g, raw.kinematic⟩ := by
    rw [hd1]
    simp only [physicsExportRawData]
    rw [hvec]
    have hlen : ((List.range count).map g).length = count := by simp
    rw [if_neg (by omega)]
    simp [hc0, convertShapeDef]
  refine ⟨hexp, ?_⟩
  have hlen : ((List.range count).map g).length = count := by simp
  have hne' : 0 < ((List.range count).map g).length := by omega
  have hmin' : min ((List.range count).map g).length kMaxPhysicsBodies
      = count := by
    rw [hlen]
    omega
  have hgetD : ∀ i, i < count →
      ((List.range count).map g).getD i defaultBulletShapeDef = g i := by
    intro i hic
    rw [List.getD_eq_getElem?_getD, List.getElem?_map,
      List.getElem?_range (by omega : i < count)]
    rfl
  rw [hd1]
  simp only [physicsAddFromRawDataUpdate, hne', if_pos, hmin']
  simp only [PhysicsData.mk.injEq]
  refine ⟨?_, trivial, trivial⟩
  funext i
  by_cases hic : i < count
  · rw [if_pos hic, if_pos hic, hgetD i hic, hgdef]
    exact convertShapeDef_export_roundtrip raw.kinematic i _
      (hcw _ (getD_mem_of_lt _ _ _ (by omega)))
  · rw [if_neg hic, if_neg hic]
    rfl

/-- **C4, counterexample.** `GraphComponent::ExportRawData` on an entity
whose data was created programmatically (no graphs, no backing filename —
as `GetCreateBroadcaster` creates it) does *not* return the
"nothing to export" sentinel: it returns a default-valued `GraphDef` blob
with no `filename_list` (graph.cpp:92-97 build and return the table
unconditionally once the entity has data). -/
theorem C4_counterexample :
    graph_ExportRawData wGraphEmpty 0 ≠ none ∧
    graph_ExportRawData wGraphEmpty 0 = some ⟨none⟩ := by
  constructor
  · intro h
    simp [graph_ExportRawData, CompState.GetComponentData, wGraphEmpty,
      CompState.GetComponentDataIndex, CompState.GetComponentDataAt,
      VectorPool.Size, VectorPool.GetElementData] at h
  · rfl

/-- **C4, amended.** The base `Component::ExportRawData` always returns
the sentinel.  `RenderMeshComponent` returns it for an unregistered entity
and for programmatically created data (an empty mesh or shader filename),
and `PhysicsComponent` for data with no bodies.  `GraphComponent`,
however, returns the sentinel only for an unregistered entity: for a
registered entity with no graphs it returns a default `GraphDef` blob with
no `filename_list`. -/
theorem C4_export_sentinel {T A : Type} :
    (∀ (st : CompState T A) (e : Nat),
      CompState.Component_ExportRawData_default st e = none) ∧
    (∀ (st : CompState RenderMeshData A) (e : Nat),
      st.GetComponentData e = none → rm_ExportRawData st e = none) ∧
    (∀ (st : CompState RenderMeshData A) (e : Nat) (d : RenderMeshData),
      st.GetComponentData e = some d →
      d.mesh_filename = "" ∨ d.shader_filename = "" →
      rm_ExportRawData st e = none) ∧
    (∀ (st : CompState PhysicsData A) (e : Nat) (d : PhysicsData),
      st.GetComponentData e = some d → d.body_count = 0 →
      phys_ExportRawData st e = none) ∧
    (∀ (st : CompState GraphData A) (e : Nat) (d : GraphData),
      st.GetComponentData e = some d → d.graphs = [] →
      graph_ExportRawData st e = some ⟨none⟩) := by
  refine ⟨fun _ _ => rfl, ?_, ?_, ?_, ?_⟩
  · intro st e hnone
    simp [rm_ExportRawData, hnone]
  · intro st e d hd hempty
    simp [rm_ExportRawData, hd, hempty]
  · intro st e d hd hbc
    simp [phys_ExportRawData, hd, physicsExportRawData, hbc]
  · intro st e d hd hg
    simp [graph_ExportRawData, hd, hg]

/-- Witness for C4 (amended): the base default returns the sentinel on the
one-record state; rendermesh returns the sentinel for entity 4's
programmatic record and for the unregistered entity 8; graph returns the
non-sentinel default blob for entity 0's programmatic record. -/
theorem C4_witness :
    CompState.Component_ExportRawData_default wComp1 7 = none ∧
    rm_ExportRawData wRMProgrammatic 4 = none ∧
    rm_ExportRawData wRMProgrammatic 8 = none ∧
    graph_ExportRawData wGraphEmpty 0 = some ⟨none⟩ := by
  have h := C4_export_sentinel (T := Nat) (A := Unit)
  exact ⟨h.1 wComp1 7,
    h.2.2.1 wRMProgrammatic 4
      { defaultRenderMeshData with currently_hidden := true } rfl (Or.inl rfl),
    h.2.1 wRMProgrammatic 8 rfl,
    h.2.2.2.2 wGraphEmpty 0 ⟨[]⟩ rfl rfl⟩

/-- **C5.** Round trip through export for the components that declare
export support.  (Graph) For any entity `e1` with graph data `d1` and any
fresh entity `e2` in a well-formed state, `ExportRawData(e1)` is non-null
and `AddFromRawData(e2, ExportRawData(e1))` yields data for `e2` whose
graph filenames equal `d1`'s (the graph-state objects themselves are
excluded from export).  (Physics) For data imported from any blob with at
least one shape whose collision layers lie within the enum,
`ExportRawData(e1)` is non-null and `AddFromRawData(e2, ExportRawData(e1))`
on a fresh entity reproduces e1's `PhysicsData` exactly. -/
theorem C5_export_import_roundtrip {A : Type} :
    (∀ (st1 : CompState GraphData A) (e1 : Nat) (d1 : GraphData)
      (st2 : CompState GraphData A) (e2 : Nat),
      st1.GetComponentData e1 = some d1 →
      CompState.StWF st2 → st2.tbl e2 = none →
      ∃ blob, graph_ExportRawData st1 e1 = some blob ∧
        ∃ d2, (graph_AddFromRawData st2 e2 blob).GetComponentData e2
            = some d2 ∧
          d2.graphs.map (fun gr => gr.filename)
            = d1.graphs.map (fun gr => gr.filename)) ∧
    (∀ (st1 : CompState PhysicsData A) (e1 : Nat) (raw : PhysicsDef)
      (st2 : CompState PhysicsData A) (e2 : Nat),
      st1.GetComponentData e1
        = some (physicsAddFromRawDataUpdate defaultPhysicsData raw) →
      0 < raw.shapes.length →
      (∀ sd ∈ raw.shapes, ∀ c ∈ sd.collides_with.getD [],
        c < BulletCollisionType_End) →
      CompState.StWF st2 → st2.tbl e2 = none →
      ∃ raw', phys_ExportRawData st1 e1 = some raw' ∧
        (phys_AddFromRawData st2 e2 raw').GetComponentData e2
          = some (physicsAddFromRawDataUpdate defaultPhysicsData raw)) := by
  constructor
  · intro st1 e1 d1 st2 e2 hd1 hwf2 hfresh
    refine ⟨⟨if 0 < (d1.graphs.map (fun gr => gr.filename)).length then
      some (d1.graphs.map (fun gr => gr.filename)) else none⟩, ?_, ?_⟩
    · simp [graph_ExportRawData, hd1]
    · have h := CompState.addAndWrite_spec defaultGraphData
        (fun _ => (⟨(((⟨if 0 < (d1.graphs.map (fun gr => gr.filename)).length
            then some (d1.graphs.map (fun gr => gr.filename)) else none⟩ :
          GraphDef)).filename_list.getD []).map (fun f => ⟨f, some ()⟩)⟩ :
          GraphData)) st2 e2 hwf2
      refine ⟨_, h.2.1, ?_⟩
      by_cases hg : d1.graphs = []
      · simp [hg]
      · have hlen : 0 < (d1.graphs.map (fun gr => gr.filename)).length := by
          simp [List.length_pos, hg]
        simp [hlen, List.length_pos, hg, Function.comp]
  · intro st1 e1 raw st2 e2 hd1 hne hcw hwf2 hfresh
    obtain ⟨hexp, himp⟩ := physicsRoundtripData raw hne hcw
    refine ⟨⟨(List.range (min raw.shapes.length kMaxPhysicsBodies)).map
      (fun i => exportBody (convertShapeDef raw.kinematic i
        (raw.shapes.getD i defaultBulletShapeDef))), raw.kinematic⟩, ?_, ?_⟩
    · simp [phys_ExportRawData, hd1, hexp]
    · have h := CompState.addAndWrite_spec defaultPhysicsData
        (fun d => physicsAddFromRawDataUpdate d
          ⟨(List.range (min raw.shapes.length kMaxPhysicsBodies)).map
            (fun i => exportBody (convertShapeDef raw.kinematic i
              (raw.shapes.getD i defaultBulletShapeDef))),
            raw.kinematic⟩) st2 e2 hwf2
      have hnone : st2.GetComponentData e2 = none := by
        simp [CompState.GetComponentData, CompState.GetComponentDataIndex,
          hfresh]
      rw [phys_AddFromRawData, h.2.1, hnone]
      simp only [Option.getD]
      rw [himp]

/-- Witness for C5: entity 3's single graph `"a.graph"` round-trips onto
fresh entity 11, and entity 6's imported sphere body round-trips onto
fresh entity 12. -/
theorem C5_witness :
    (∃ blob, graph_ExportRawData wGraph 3 = some blob ∧
      ∃ d2, (graph_AddFromRawData wGraphState 11 blob).GetComponentData 11
          = some d2 ∧
        d2.graphs.map (fun gr => gr.filename)
          = (⟨[⟨"a.graph", some ()⟩]⟩ : GraphData).graphs.map
              (fun gr => gr.filename)) ∧
    (∃ raw', phys_ExportRawData wPhysImported 6 = some raw' ∧
      (phys_AddFromRawData wPhysState 12 raw').GetComponentData 12
        = some (physicsAddFromRawDataUpdate defaultPhysicsData wPhysDef)) := by
  constructor
  · exact (C5_export_import_roundtrip (A := Unit)).1 wGraph 3
      ⟨[⟨"a.graph", some ()⟩]⟩ wGraphState 11 rfl (emptyStWF ()) rfl
  · exact (C5_export_import_roundtrip (A := Unit)).2 wPhysImported 6 wPhysDef
      wPhysState 12 rfl (by decide) (by decide) (emptyStWF ()) rfl

/-- Helper: erasing an element that differs from the head steps over the
head. -/
theorem erase_cons_ne {x y : Nat} (ys : List Nat) (h : x ≠ y) :
    (y :: ys).erase x = y :: ys.erase x :=
  List.erase_cons_tail (by simpa using fun hh => h hh.symm)

/-- The element following `i` in `l1 ++ i :: l2` is the head of `l2`,
provided `i` does not occur in `l1`. -/
theorem afterIn_append (l1 l2 : List Nat) (i : Nat) (h : i ∉ l1) :
    VectorPool.afterIn (l1 ++ i :: l2) i = l2.head? := by
  induction l1 with
  | nil => simp [VectorPool.afterIn]
  | cons x xs ih =>
      have hx : ¬ x = i := fun hh => h (by rw [hh]; exact List.mem_cons_self _ _)
      simp only [List.cons_append, VectorPool.afterIn, if_neg hx]
      exact ih (fun hm => h (List.mem_cons_of_mem _ hm))

/-- Erasing an element other than `cur` commutes with dropping the prefix
before `cur`, on duplicate-free lists. -/
theorem dropWhile_erase (l : List Nat) (cur x : Nat) (hnd : l.Nodup)
    (hcur : cur ∈ l) (hx : x ≠ cur) :
    (l.erase x).dropWhile (fun y => y ≠ cur)
      = (l.dropWhile (fun y => y ≠ cur)).erase x := by
  induction l with
  | nil => simp
  | cons y ys ih =>
      by_cases hyc : y = cur
      · subst hyc
        rw [erase_cons_ne ys hx]
        rw [List.dropWhile_cons_of_neg (by simp), List.dropWhile_cons_of_neg (by simp)]
        exact (erase_cons_ne ys hx).symm
      · have hcur' : cur ∈ ys := by
          rcases List.mem_cons.mp hcur with h | h
          · exact absurd h.symm hyc
          · exact h
        by_cases hxy : x = y
        · subst hxy
          rw [List.erase_cons_head]
          rw [List.dropWhile_cons_of_pos (by simpa using hyc)]
          have hxnot : x ∉ ys.dropWhile (fun y => y ≠ cur) := by
            intro hmem
            exact (List.nodup_cons.mp hnd).1
              (List.Sublist.mem hmem (List.dropWhile_sublist _))
          rw [List.erase_of_not_mem hxnot]
        · rw [erase_cons_ne ys hxy]
          rw [List.dropWhile_cons_of_pos (by simpa using hyc),
            List.dropWhile_cons_of_pos (by simpa using hyc)]
          exact ih (List.nodup_cons.mp hnd).2 hcur'

/-- Freeing the head of the iteration order removes exactly it and
preserves pool consistency. -/
theorem WF_free_head {T : Type} (p : VectorPool T) (hwf : p.WF) (i : Nat)
    (rest : List Nat) (horder : p.order = i :: rest) :
    (p.FreeElement i).order = rest ∧
    (p.FreeElement i).freeList = i :: p.freeList ∧
    (p.FreeElement i).WF := by
  have hmem : i ∈ p.order := by rw [horder]; exact List.mem_cons_self _ _
  have hocc : p.isOccupied i = true := (hwf.mem_iff i).mp hmem
  have hlt : i < p.slots.length :=
    getD_isSome_lt (l := p.slots) (i := i)
      (by simpa [VectorPool.isOccupied, VectorPool.GetElementData] using hocc)
  have hfe : p.FreeElement i =
      ⟨p.slots.set i none, i :: p.freeList, p.order.erase i⟩ := by
    simp [VectorPool.FreeElement, hocc]
  have hnd := hwf.nodup
  rw [horder] at hnd
  have hrest : i ∉ rest := (List.nodup_cons.mp hnd).1
  have herase : p.order.erase i = rest := by
    rw [horder, List.erase_cons_head]
  rw [hfe]
  refine ⟨by simp [herase], rfl, ?_, ?_, ?_, ?_⟩
  · simp only [herase]
    exact (List.nodup_cons.mp hnd).2
  · intro j
    simp only [herase, VectorPool.isOccupied, VectorPool.GetElementData,
      List.getD_eq_getElem?_getD]
    constructor
    · intro hj
      have hji : j ≠ i := fun hh => hrest (hh ▸ hj)
      have hjocc : p.isOccupied j = true := (hwf.mem_iff j).mp
        (by rw [horder]; exact List.mem_cons_of_mem _ hj)
      simpa [List.getElem?_set_ne (fun h => hji h.symm),
        VectorPool.isOccupied, VectorPool.GetElementData,
        List.getD_eq_getElem?_getD] using hjocc
    · intro hj
      by_cases hji : j = i
      · subst hji
        rw [List.getElem?_set_self hlt] at hj
        simp at hj
      · rw [List.getElem?_set_ne (fun h => hji h.symm)] at hj
        have hjocc : p.isOccupied j = true := by
          simpa [VectorPool.isOccupied, VectorPool.GetElementData,
            List.getD_eq_getElem?_getD] using hj
        have := (hwf.mem_iff j).mpr hjocc
        rw [horder] at this
        rcases List.mem_cons.mp this with h | h
        · exact absurd h hji
        · exact h
  · intro j hj
    simp only [List.mem_cons] at hj
    simp only [List.length_set]
    rcases hj with h | h
    · omega
    · exact hwf.free_lt j h
  · intro j hj
    simp only [List.mem_cons] at hj
    rcases hj with h | h
    · subst h
      simp [VectorPool.isOccupied, VectorPool.GetElementData,
        List.getD_eq_getElem?_getD, List.getElem?_set_self hlt]
    · have hji : j ≠ i := by
        intro hh
        subst hh
        have := hwf.free_free j h
        rw [hocc] at this
        exact Bool.noConfusion this
      have := hwf.free_free j h
      simpa [VectorPool.isOccupied, VectorPool.GetElementData,
        List.getD_eq_getElem?_getD,
        List.getElem?_set_ne (fun h => hji h.symm)] using this

/-- A traversal that frees the current element at every step visits
exactly the iteration order (any fuel of at least the live count
suffices). -/
theorem removeAllVisits_spec {T : Type} (fuel : Nat) :
    ∀ (p : VectorPool T), p.WF → p.activeCount ≤ fuel →
      removeAllVisits fuel p = p.order := by
  induction fuel with
  | zero =>
      intro p _ hle
      have : p.order = [] := by
        simpa [VectorPool.activeCount, List.length_eq_zero] using hle
      simp [removeAllVisits, this]
  | succ fuel ih =>
      intro p hwf hle
      rcases horder : p.order with _ | ⟨i, rest⟩
      · simp [removeAllVisits, VectorPool.beginIter, horder]
      · obtain ⟨ho, _, hwf'⟩ := WF_free_head p hwf i rest horder
        have hcount : (p.FreeElement i).activeCount ≤ fuel := by
          rw [VectorPool.activeCount, ho]
          rw [VectorPool.activeCount, horder] at hle
          simpa using Nat.le_of_succ_le_succ hle
        simp only [removeAllVisits, VectorPool.beginIter, horder,
          List.head?_cons]
        rw [ih _ hwf' hcount, ho]

/-- **C6.** Safe in-loop removal.  (a) The iterator-based `RemoveEntity`'s
pool free returns a valid iterator to the next live element: with the
order split as `l1 ++ cur :: l2`, freeing at `cur` yields the head of `l2`
and the order `l1 ++ l2`.  (b) A traversal that frees the current element
at every step visits every live element exactly once (the visit sequence
is exactly the duplicate-free iteration order) and terminates within
`activeCount` steps.  (c) Freeing a different element `x` during a
traversal positioned at `cur` removes exactly `x` from the remaining visit
sequence — nothing is skipped or revisited. -/
theorem C6_inloop_removal {T : Type} :
    (∀ (p : VectorPool T) (l1 l2 : List Nat) (cur : Nat), p.WF →
      p.order = l1 ++ cur :: l2 →
      (p.FreeElementIter cur).2 = l2.head? ∧
      (p.FreeElementIter cur).1.order = l1 ++ l2) ∧
    (∀ (p : VectorPool T) (fuel : Nat), p.WF → p.activeCount ≤ fuel →
      removeAllVisits fuel p = p.order ∧ (removeAllVisits fuel p).Nodup) ∧
    (∀ (p : VectorPool T) (cur x : Nat), p.WF → cur ∈ p.order → x ≠ cur →
      (p.FreeElement x).toVisit (some cur)
        = (p.toVisit (some cur)).erase x) := by
  refine ⟨?_, ?_, ?_⟩
  · intro p l1 l2 cur hwf horder
    have hnotl1 : cur ∉ l1 := by
      intro hmem
      have hnd := hwf.nodup
      rw [horder] at hnd
      rcases List.nodup_append.mp hnd with ⟨_, _, hdisj⟩
      exact hdisj hmem (List.mem_cons_self _ _)
    have hocc : p.isOccupied cur = true := (hwf.mem_iff cur).mp
      (by rw [horder]; exact List.mem_append_right _ (List.mem_cons_self _ _))
    constructor
    · simp [VectorPool.FreeElementIter, VectorPool.nextOf, horder,
        afterIn_append l1 l2 cur hnotl1]
    · simp [VectorPool.FreeElementIter, VectorPool.FreeElement, hocc, horder,
        List.erase_append_right _ hnotl1]
  · intro p fuel hwf hle
    refine ⟨removeAllVisits_spec fuel p hwf hle, ?_⟩
    rw [removeAllVisits_spec fuel p hwf hle]
    exact hwf.nodup
  · intro p cur x hwf hcur hx
    by_cases hocc : p.isOccupied x = true
    · have hmem : x ∈ p.order := (hwf.mem_iff x).mpr hocc
      simp only [VectorPool.toVisit, VectorPool.FreeElement, hocc, if_pos]
      exact dropWhile_erase p.order cur x hwf.nodup hcur hx
    · have hnmem : x ∉ p.order := fun hmem => hocc ((hwf.mem_iff x).mp hmem)
      have hfe : p.FreeElement x = p := by
        simp [VectorPool.FreeElement, hocc]
      rw [hfe]
      have : x ∉ p.order.dropWhile (fun y => y ≠ cur) := by
        intro hmem
        exact hnmem ((List.dropWhile_sublist _).mem hmem)
      simp only [VectorPool.toVisit]
      rw [List.erase_of_not_mem this]

/-- The three-element witness pool is consistent. -/
theorem wPool6_WF : wPool6.WF := by
  refine ⟨by decide, ?_, by simp [wPool6], by simp [wPool6]⟩
  intro i
  match i with
  | 0 => simp [wPool6, VectorPool.isOccupied, VectorPool.GetElementData]
  | 1 => simp [wPool6, VectorPool.isOccupied, VectorPool.GetElementData]
  | 2 => simp [wPool6, VectorPool.isOccupied, VectorPool.GetElementData]
  | n + 3 =>
      have hd : ([some 10, some 20, some 30] : List (Option Nat)).getD
          (n + 3) none = none := List.getD_eq_default _ _ (by simp)
      simp [wPool6, VectorPool.isOccupied, VectorPool.GetElementData, hd]

/-- Witness for C6: in the pool `10, 20, 30` (order 0, 1, 2), freeing at
the iterator on slot 1 returns the iterator to slot 2 and order `[0, 2]`;
the remove-current traversal visits `0, 1, 2`; freeing slot 2 while the
iterator sits at slot 1 leaves the visit sequence `[1, 2].erase 2`. -/
theorem C6_witness :
    (wPool6.FreeElementIter 1).2 = some 2 ∧
    (wPool6.FreeElementIter 1).1.order = [0, 2] ∧
    removeAllVisits 3 wPool6 = [0, 1, 2] ∧
    (wPool6.FreeElement 2).toVisit (some 1) = ([1, 2] : List Nat).erase 2 := by
  have h := C6_inloop_removal (T := Nat)
  have ha := h.1 wPool6 [0] [2] 1 wPool6_WF rfl
  have hb := (h.2.1 wPool6 3 wPool6_WF (by decide)).1
  have hc := h.2.2 wPool6 1 2 wPool6_WF (by decide) (by decide)
  exact ⟨ha.1, ha.2, hb, hc⟩

/-- One step of the `ClearComponentData` loop on a well-formed state:
removing at the head of the iteration order logs exactly that record's
observation, frees its slot, clears its entity's table entry, and
preserves well-formedness. -/
theorem clear_step {T : Type} (st : CompState T (List (Nat × Option T)))
    (hwf : CompState.StWF st) (i : Nat) (rest : List Nat)
    (horder : st.component_data.order = i :: rest) :
    ∃ e d, st.component_data.GetElementData i = some ⟨some e, d⟩ ∧
      st.tbl e = some i ∧
      (CompState.RemoveEntityIter (CompState.obsCleanup T) st i).1
        = ⟨⟨st.component_data.slots.set i none,
            i :: st.component_data.freeList, rest⟩,
           fun x => if x = e then none else st.tbl x,
           st.aux ++ [(e, some d)]⟩ ∧
      CompState.StWF (⟨⟨st.component_data.slots.set i none,
            i :: st.component_data.freeList, rest⟩,
           fun x => if x = e then none else st.tbl x,
           st.aux ++ [(e, some d)]⟩ : CompState T (List (Nat × Option T))) := by
  obtain ⟨e, d, hslot, htbl⟩ := hwf.order_occ i
    (by rw [horder]; exact List.mem_cons_self _ _)
  have hocc : st.component_data.isOccupied i = true := by
    simp [VectorPool.isOccupied, hslot]
  have hlt : i < st.component_data.slots.length :=
    getD_isSome_lt (l := st.component_data.slots) (i := i)
      (by simp [VectorPool.GetElementData] at hslot
          simp [VectorPool.GetElementData, hslot])
  have hdata := CompState.getComponentData_of_slot st e i ⟨some e, d⟩
    htbl hslot
  have hnd := hwf.nodup
  rw [horder] at hnd
  have hrest : i ∉ rest := (List.nodup_cons.mp hnd).1
  refine ⟨e, d, hslot, htbl, ?_, ?_⟩
  · simp [CompState.RemoveEntityIter, CompState.RemoveEntityInternal,
      CompState.obsCleanup, CompState.SetComponentDataIndex,
      VectorPool.FreeElementIter, VectorPool.FreeElement, hocc, hslot,
      hdata, horder]
  · refine ⟨(List.nodup_cons.mp hnd).2, ?_, ?_, ?_, ?_, ?_⟩
    · intro j hj
      have hji : j ≠ i := fun hh => hrest (hh ▸ hj)
      obtain ⟨e', d', hslot', htbl'⟩ := hwf.order_occ j
        (by rw [horder]; exact List.mem_cons_of_mem _ hj)
      have hee : e' ≠ e := by
        intro hh
        subst hh
        rw [htbl] at htbl'
        cases htbl'
        exact hji rfl
      refine ⟨e', d', ?_, ?_⟩
      · simpa [VectorPool.GetElementData, List.getD_eq_getElem?_getD,
          List.getElem?_set_ne (fun h => hji h.symm)] using hslot'
      · simp [hee, htbl']
    · intro e' j htbl'
      simp only at htbl'
      by_cases hee : e' = e
      · rw [if_pos hee] at htbl'
        cases htbl'
      · rw [if_neg hee] at htbl'
        obtain ⟨hmem', cd', hslot', hent'⟩ := hwf.tbl_sound e' j htbl'
        have hji : j ≠ i := by
          intro hh
          subst hh
          rw [hslot] at hslot'
          cases hslot'
          simp at hent'
          exact hee hent'.symm
        constructor
        · rw [horder] at hmem'
          rcases List.mem_cons.mp hmem' with h | h
          · exact absurd h hji
          · exact h
        · refine ⟨cd', ?_, hent'⟩
          simpa [VectorPool.GetElementData, List.getD_eq_getElem?_getD,
            List.getElem?_set_ne (fun h => hji h.symm)] using hslot'
    · intro j hj
      by_cases hji : j = i
      · subst hji
        exfalso
        simp [VectorPool.isOccupied, VectorPool.GetElementData,
          List.getD_eq_getElem?_getD, List.getElem?_set_self hlt] at hj
      · have hjocc : st.component_data.isOccupied j = true := by
          simpa [VectorPool.isOccupied, VectorPool.GetElementData,
            List.getD_eq_getElem?_getD,
            List.getElem?_set_ne (fun h => hji h.symm)] using hj
        have := hwf.occ_mem j hjocc
        rw [horder] at this
        rcases List.mem_cons.mp this with h | h
        · exact absurd h hji
        · exact h
    · intro j hj
      simp only [List.mem_cons] at hj
      simp only [List.length_set]
      rcases hj with h | h
      · omega
      · exact hwf.free_lt j h
    · intro j hj
      simp only [List.mem_cons] at hj
      rcases hj with h | h
      · subst h
        simp [VectorPool.isOccupied, VectorPool.GetElementData,
          List.getD_eq_getElem?_getD, List.getElem?_set_self hlt]
      · have hji : j ≠ i := by
          intro hh
          subst hh
          have := hwf.free_free j h
          rw [hocc] at this
          exact Bool.noConfusion this
        have := hwf.free_free j h
        simpa [VectorPool.isOccupied, VectorPool.GetElementData,
          List.getD_eq_getElem?_getD,
          List.getElem?_set_ne (fun h => hji h.symm)] using this

/-- The `ClearComponentData` loop on a well-formed state: with fuel equal
to the live count (the number of iterations the source loop performs), the
pool is emptied, every table entry is cleared, and the observer hook was
invoked once per record in iteration order, each invocation seeing the
still-live record. -/
theorem clearLoop_spec {T : Type} : ∀ (n : Nat)
    (st : CompState T (List (Nat × Option T))), CompState.StWF st →
    st.component_data.order.length = n →
    (CompState.clearLoop (CompState.obsCleanup T) n st).component_data.order
      = [] ∧
    (CompState.clearLoop (CompState.obsCleanup T) n st).aux
      = st.aux ++ st.component_data.order.map (CompState.cleanupObs st) ∧
    (∀ e, (CompState.clearLoop (CompState.obsCleanup T) n st).tbl e
      = none) := by
  intro n
  induction n with
  | zero =>
      intro st hwf hlen
      have horder : st.component_data.order = [] :=
        List.length_eq_zero.mp hlen
      refine ⟨by simp [CompState.clearLoop, horder],
        by simp [CompState.clearLoop, horder], ?_⟩
      intro e
      rcases h : st.tbl e with _ | i
      · exact h
      · exfalso
        have := (hwf.tbl_sound e i h).1
        rw [horder] at this
        simp at this
  | succ n ih =>
      intro st hwf hlen
      rcases horder : st.component_data.order with _ | ⟨i, rest⟩
      · rw [horder] at hlen
        simp at hlen
      · obtain ⟨e, d, hslot, htbl, hstep, hwf'⟩ :=
          clear_step st hwf i rest horder
        have hloop : CompState.clearLoop (CompState.obsCleanup T) (n + 1) st
            = CompState.clearLoop (CompState.obsCleanup T) n
              (CompState.RemoveEntityIter (CompState.obsCleanup T) st i).1 := by
          simp [CompState.clearLoop, VectorPool.beginIter, horder]
        rw [hloop, hstep]
        have hlen' : (⟨⟨st.component_data.slots.set i none,
            i :: st.component_data.freeList, rest⟩,
            fun x => if x = e then none else st.tbl x,
            st.aux ++ [(e, some d)]⟩ :
            CompState T (List (Nat × Option T))).component_data.order.length
            = n := by
          rw [horder] at hlen
          simpa using Nat.succ_injective hlen
        obtain ⟨ho, ha, ht⟩ := ih _ hwf' hlen'
        refine ⟨ho, ?_, ht⟩
        rw [ha]
        have hnd := hwf.nodup
        rw [horder] at hnd
        have hrest : i ∉ rest := (List.nodup_cons.mp hnd).1
        have hmapeq : rest.map (CompState.cleanupObs
            (⟨⟨st.component_data.slots.set i none,
              i :: st.component_data.freeList, rest⟩,
              fun x => if x = e then none else st.tbl x,
              st.aux ++ [(e, some d)]⟩ :
              CompState T (List (Nat × Option T))))
            = rest.map (CompState.cleanupObs st) := by
          refine List.map_congr_left ?_
          intro j hj
          have hji : j ≠ i := fun hh => hrest (hh ▸ hj)
          simp [CompState.cleanupObs, VectorPool.GetElementData,
            List.getD_eq_getElem?_getD,
            List.getElem?_set_ne (fun h => hji h.symm)]
        have hobs_i : CompState.cleanupObs st i = (e, some d) := by
          simp [CompState.cleanupObs, hslot]
        simp only [hmapeq, horder, List.map_cons, hobs_i]
        simp [List.append_assoc]

/-- **C7.** `ClearComponentData` — literally the loop `for (iter = begin;
iter != end; iter = RemoveEntity(iter))` of component.h:152-156, i.e.
repeated iterator-based removal from `begin()` until the pool is empty —
leaves, on any well-formed state, a component tracking zero entities
(empty order, zero live count), clears every entity's index-table entry,
and ran the `CleanupEntity` observer once per record in iteration order,
each invocation seeing the still-live data.  Each formerly-registered
entity appears in that observation log exactly once (the logged entities
are duplicate-free and every registered entity's record is logged). -/
theorem C7_clearComponentData {T : Type}
    (st : CompState T (List (Nat × Option T)))
    (hwf : CompState.StWF st) :
    (CompState.ClearComponentData (CompState.obsCleanup T) st
      ).component_data.order = [] ∧
    (CompState.ClearComponentData (CompState.obsCleanup T) st
      ).component_data.activeCount = 0 ∧
    (∀ e, (CompState.ClearComponentData (CompState.obsCleanup T) st).tbl e
      = none) ∧
    (CompState.ClearComponentData (CompState.obsCleanup T) st).aux
      = st.aux ++ st.component_data.order.map (CompState.cleanupObs st) ∧
    ((st.component_data.order.map (CompState.cleanupObs st)).map
      Prod.fst).Nodup ∧
    (∀ e i, st.tbl e = some i → ∃ d, st.GetComponentData e = some d ∧
      (e, some d) ∈ st.component_data.order.map (CompState.cleanupObs st)) := by
  obtain ⟨ho, ha, ht⟩ := clearLoop_spec st.component_data.order.length st hwf
    rfl
  refine ⟨ho, ?_, ht, ha, ?_, ?_⟩
  · have ho' : (CompState.ClearComponentData (CompState.obsCleanup T)
        st).component_data.order = [] := ho
    simp [VectorPool.activeCount, ho']
  · rw [List.map_map]
    refine List.Nodup.map_on ?_ hwf.nodup
    intro x hx y hy hf
    obtain ⟨ex, dx, hsx, htx⟩ := hwf.order_occ x hx
    obtain ⟨ey, dy, hsy, hty⟩ := hwf.order_occ y hy
    have hfx : (CompState.cleanupObs st x).1 = ex := by
      simp [CompState.cleanupObs, hsx]
    have hfy : (CompState.cleanupObs st y).1 = ey := by
      simp [CompState.cleanupObs, hsy]
    have hexy : ex = ey := by
      have hf' := hf
      simp only [Function.comp] at hf'
      rw [hfx, hfy] at hf'
      exact hf'
    rw [hexy] at htx
    rw [htx] at hty
    exact Option.some_injective _ hty
  · intro e i htbl
    obtain ⟨hmem, cd, hslot, hent⟩ := hwf.tbl_sound e i htbl
    refine ⟨cd.data, CompState.getComponentData_of_slot st e i cd htbl hslot,
      ?_⟩
    have hobs : CompState.cleanupObs st i = (e, some cd.data) := by
      simp [CompState.cleanupObs, hslot, hent]
    rw [← hobs]
    exact List.mem_map_of_mem _ hmem

/-- The two-record witness state is well formed. -/
theorem wComp3_StWF : CompState.StWF wComp3 := by
  refine ⟨by decide, ?_, ?_, ?_, by simp [wComp3], by simp [wComp3]⟩
  · intro i hi
    rcases hi2 : i with _ | _ | n
    · exact ⟨5, 10, rfl, rfl⟩
    · exact ⟨9, 20, rfl, rfl⟩
    · exfalso
      rw [hi2] at hi
      simp [wComp3] at hi
  · intro e i htbl
    by_cases h5 : e = 5
    · subst h5
      simp [wComp3] at htbl
      subst htbl
      exact ⟨by simp [wComp3], ⟨some 5, 10⟩, rfl, rfl⟩
    · by_cases h9 : e = 9
      · subst h9
        simp [wComp3, h5] at htbl
        subst htbl
        exact ⟨by simp [wComp3], ⟨some 9, 20⟩, rfl, rfl⟩
      · exfalso
        simp [wComp3, h5, h9] at htbl
  · intro i hocc
    rcases hi2 : i with _ | _ | n
    · simp [wComp3]
    · simp [wComp3]
    · exfalso
      rw [hi2] at hocc
      have hd : ([some ⟨some 5, 10⟩, some ⟨some 9, 20⟩] :
          List (Option (ComponentData Nat))).getD (n + 2) none = none :=
        List.getD_eq_default _ _ (by simp)
      simp [wComp3, VectorPool.isOccupied, VectorPool.GetElementData, hd]
        at hocc

/-- Witness for C7: clearing the two-record state empties it, clears both
entities' table entries, and logs the two cleanup observations in
iteration order. -/
theorem C7_witness :
    (CompState.ClearComponentData (CompState.obsCleanup Nat) wComp3
      ).component_data.order = [] ∧
    (CompState.ClearComponentData (CompState.obsCleanup Nat) wComp3).tbl 5
      = none ∧
    (CompState.ClearComponentData (CompState.obsCleanup Nat) wComp3).tbl 9
      = none ∧
    (CompState.ClearComponentData (CompState.obsCleanup Nat) wComp3).aux
      = [(5, some 10), (9, some 20)] := by
  have h := C7_clearComponentData wComp3 wComp3_StWF
  exact ⟨h.1, h.2.2.1 5, h.2.2.1 9, h.2.2.2.1⟩

/-- **C8.** Placement scenario on a fresh pool: allocate A, B, C with
`placement = back`, free B, then allocate D with `placement = front`.  The
iteration order is D, A, C, while D reuses B's storage slot (index 1):
placement controls only the position in iteration order, independent of
the storage slot the element occupies. -/
theorem C8_placement_scenario :
    (let p0 : VectorPool String := VectorPool.empty
     let a := p0.GetNewElement .kAddToBack "A"
     let b := a.2.GetNewElement .kAddToBack "B"
     let c := b.2.GetNewElement .kAddToBack "C"
     let pf := c.2.FreeElement b.1
     let d := pf.GetNewElement .kAddToFront "D"
     d.2.order.map (fun i => d.2.GetElementData i)
        = [some "D", some "A", some "C"] ∧
     b.1 = 1 ∧ d.1 = 1 ∧ d.2.order = [1, 0, 2]) := by
  exact ⟨rfl, rfl, rfl, rfl⟩

/-- **C9.** (a) In `AddEntity` on an unregistered entity, the index-table
entry and the record's entity back-pointer are written *before*
`InitEntity` runs: the observing `InitEntity` hook sees the entity already
registered with the back-pointer in place.  (b) Hence a reentrant
`AddEntity` for the same (entity, component) pair — as issued from inside
the `InitEntity` overrides of `PhysicsComponent` and
`RenderMeshComponent` — takes the already-registered branch: it returns
the existing slot, changes nothing, and invokes no hook.  (c) Two
components whose `InitEntity` hooks register the entity with each other
allocate exactly one record each and reach a fixed point at nesting depth
2: more fuel never changes the result, so the mutual recursion is
bounded. -/
theorem C9_registration_before_init {T U : Type} :
    (∀ (st : CompState T (List (Bool × Option Nat))) (dflt : T) (e : Nat)
      (loc : AllocationLocation),
      st.IsRegisteredForComponent e = false →
      (∀ i ∈ st.component_data.freeList, i < st.component_data.slots.length) →
      (∀ i ∈ st.component_data.freeList,
        st.component_data.isOccupied i = false) →
      ((CompState.AddEntity (CompState.obsInit T) dflt st e loc).2).aux
        = st.aux ++ [(true, some e)]) ∧
    (∀ (A : Type) (ih : Hook T A) (dflt : T) (st : CompState T A)
      (e i : Nat) (cd : ComponentData T) (loc : AllocationLocation),
      st.tbl e = some i →
      st.component_data.GetElementData i = some cd →
      CompState.AddEntity ih dflt st e loc = (some i, st)) ∧
    (∀ (w : TwoCompWorld T U) (dx : T) (dy : U) (e : Nat),
      w.x.IsRegisteredForComponent e = false →
      w.y.IsRegisteredForComponent e = false →
      (∀ i ∈ w.x.component_data.freeList,
        i < w.x.component_data.slots.length) →
      (∀ i ∈ w.x.component_data.freeList,
        w.x.component_data.isOccupied i = false) →
      (∀ i ∈ w.y.component_data.freeList,
        i < w.y.component_data.slots.length) →
      (∀ i ∈ w.y.component_data.freeList,
        w.y.component_data.isOccupied i = false) →
      (∀ f, addToX dx dy (f + 2) w e
        = ⟨(CompState.addEntityAlloc dx w.x e .kAddToBack).2,
           (CompState.addEntityAlloc dy w.y e .kAddToBack).2⟩) ∧
      (addToX dx dy 2 w e).x.IsRegisteredForComponent e = true ∧
      (addToX dx dy 2 w e).y.IsRegisteredForComponent e = true ∧
      (addToX dx dy 2 w e).x.component_data.activeCount
        = w.x.component_data.activeCount + 1 ∧
      (addToX dx dy 2 w e).y.component_data.activeCount
        = w.y.component_data.activeCount + 1) := by
  refine ⟨?_, ?_, ?_⟩
  · intro st dflt e loc hunreg hflt hff
    obtain ⟨htbl_e, _, hnew, _, _, _, _, haux⟩ :=
      CompState.addEntityAlloc_spec dflt st e loc hflt hff
    simp only [CompState.AddEntity, hunreg, Bool.false_eq_true, if_neg,
      not_false_eq_true]
    simp [CompState.obsInit, CompState.IsRegisteredForComponent, htbl_e,
      hnew, haux]
  · intro A ih dflt st e i cd loc hreg hslot
    exact CompState.addEntity_registered ih dflt st e i cd loc hreg hslot
  · intro w dx dy e hx hy hfx1 hfx2 hfy1 hfy2
    obtain ⟨haxtbl, _, _, _, _, _, haxord, _⟩ :=
      CompState.addEntityAlloc_spec dx w.x e .kAddToBack hfx1 hfx2
    obtain ⟨haytbl, _, _, _, _, _, hayord, _⟩ :=
      CompState.addEntityAlloc_spec dy w.y e .kAddToBack hfy1 hfy2
    have hstep : ∀ f, addToX dx dy (f + 2) w e
        = ⟨(CompState.addEntityAlloc dx w.x e .kAddToBack).2,
           (CompState.addEntityAlloc dy w.y e .kAddToBack).2⟩ := by
      intro f
      have h1 : addToX dx dy (f + 2) w e
          = addToY dx dy (f + 1)
            ⟨(CompState.addEntityAlloc dx w.x e .kAddToBack).2, w.y⟩ e := by
        show addToX dx dy (f + 1 + 1) w e = _
        rw [addToX]
        rw [if_neg (by simp [hx])]
      have h2 : addToY dx dy (f + 1)
          ⟨(CompState.addEntityAlloc dx w.x e .kAddToBack).2, w.y⟩ e
          = addToX dx dy f
            ⟨(CompState.addEntityAlloc dx w.x e .kAddToBack).2,
             (CompState.addEntityAlloc dy w.y e .kAddToBack).2⟩ e := by
        rw [addToY]
        rw [if_neg (by simp [hy])]
      rw [h1, h2]
      match f with
      | 0 => rw [addToX]
      | g + 1 =>
          rw [addToX]
          rw [if_pos (by simp [CompState.IsRegisteredForComponent, haxtbl])]
    refine ⟨hstep, ?_, ?_, ?_, ?_⟩
    · have := hstep 0
      rw [this]
      simp [CompState.IsRegisteredForComponent, haxtbl]
    · have := hstep 0
      rw [this]
      simp [CompState.IsRegisteredForComponent, haytbl]
    · have := hstep 0
      rw [this]
      simpa [VectorPool.activeCount] using haxord
    · have := hstep 0
      rw [this]
      simpa [VectorPool.activeCount] using hayord

/-- Witness for C9: on the empty observing state, adding entity 4 logs the
hook observation `(true, some 4)`; the reentrant add on the one-record
state returns slot 0 unchanged; in the empty two-component world, mutual
registration of entity 7 reaches its fixed point at depth 2 (fuel 5 gives
the same world) with one record in each component. -/
theorem C9_witness :
    ((CompState.AddEntity (CompState.obsInit Nat) 0 wComp9 4 .kAddToBack).2).aux
      = [(true, some 4)] ∧
    CompState.AddEntity (fun s _ => s) 0 wComp1 7 .kAddToBack
      = (some 0, wComp1) ∧
    addToX 0 0 5 wWorld9 7 = addToX 0 0 2 wWorld9 7 ∧
    (addToX 0 0 2 wWorld9 7).x.IsRegisteredForComponent 7 = true ∧
    (addToX 0 0 2 wWorld9 7).y.component_data.activeCount = 1 := by
  have h := C9_registration_before_init (T := Nat) (U := Nat)
  have hc := h.2.2 wWorld9 0 0 7 rfl rfl (by simp [wWorld9, emptyCompNat])
    (by simp [wWorld9, emptyCompNat]) (by simp [wWorld9, emptyCompNat])
    (by simp [wWorld9, emptyCompNat])
  refine ⟨h.1 wComp9 0 4 .kAddToBack rfl (by simp [wComp9])
      (by simp [wComp9]), ?_, ?_, hc.2.1, ?_⟩
  · exact h.2.1 Unit (fun s _ => s) 0 wComp1 7 0 ⟨some 7, 42⟩ .kAddToBack
      rfl rfl
  · rw [show (5 : Nat) = 3 + 2 from rfl, hc.1 3, show (2 : Nat) = 0 + 2 from rfl,
      hc.1 0]
  · rw [show (2 : Nat) = 0 + 2 from rfl, hc.1 0]
    simpa [wWorld9, emptyCompNat, VectorPool.activeCount] using hc.2.2.2.2

/-- Each `PhysicsComponent` operation keeps `body_count` within
`kMaxPhysicsBodies`: the import truncates the shape list, and
`GenerateRaycastShape` declines when the array is full. -/
theorem applyPhysOp_body_count_le (d : PhysicsData) (op : PhysOp)
    (h : d.body_count ≤ kMaxPhysicsBodies) :
    (applyPhysOp d op).body_count ≤ kMaxPhysicsBodies := by
  cases op with
  | addFromRawData raw =>
      simp only [applyPhysOp, physicsAddFromRawDataUpdate]
      by_cases hs : 0 < raw.shapes.length
      · simp [hs, Nat.min_le_right]
      · simpa [hs] using h
  | generateRaycastShape mm ex =>
      simp only [applyPhysOp, generateRaycastShapeData]
      by_cases hfull : d.body_count = kMaxPhysicsBodies
      · simp [hfull]
      · rw [if_neg hfull]
        by_cases hray : ((List.range d.body_count).any (fun i =>
            (d.rigid_bodies i).collides_with &&& BulletCollisionType_Raycast
              ≠ 0)) = true
        · rw [if_pos hray]
          exact h
        · rw [if_neg hray]
          show d.body_count + 1 ≤ kMaxPhysicsBodies
          simp only [kMaxPhysicsBodies] at h hfull ⊢
          omega
  | enablePhysics =>
      simp only [applyPhysOp, enablePhysicsData]
      by_cases he : d.enabled <;> simp [he, h]
  | disablePhysics =>
      simp only [applyPhysOp, disablePhysicsData]
      by_cases he : d.enabled <;> simp [he, h]

/-- The bound holds along any operation sequence from any in-bound start. -/
theorem runPhysOps_aux (ops : List PhysOp) :
    ∀ (d : PhysicsData), d.body_count ≤ kMaxPhysicsBodies →
      (ops.foldl applyPhysOp d).body_count ≤ kMaxPhysicsBodies := by
  induction ops with
  | nil => intro d h; simpa using h
  | cons op rest ih =>
      intro d h
      exact ih _ (applyPhysOp_body_count_le d op h)

/-- **C10.** Along every sequence of `PhysicsComponent` operations on a
freshly constructed `PhysicsData` — `AddFromRawData` (which truncates the
blob's shape list to the first `kMaxPhysicsBodies` shapes),
`GenerateRaycastShape` (which returns without adding a body when the array
is full), `EnablePhysics` and `DisablePhysics` — `body_count` never
exceeds `kMaxPhysicsBodies` (= 5), so every access `rigid_bodies[i]` with
`i < body_count` stays inside the fixed-size array. -/
theorem C10_body_count_bounded (ops : List PhysOp) :
    (runPhysOps ops).body_count ≤ kMaxPhysicsBodies ∧
    (∀ i, i < (runPhysOps ops).body_count → i < kMaxPhysicsBodies) := by
  have h : (runPhysOps ops).body_count ≤ kMaxPhysicsBodies :=
    runPhysOps_aux ops defaultPhysicsData
      (by simp [defaultPhysicsData, kMaxPhysicsBodies])
  exact ⟨h, fun i hi => lt_of_lt_of_le hi h⟩

/-- Witness for C10: importing a seven-shape blob and then requesting a
raycast shape leaves `body_count` at 5; index 4 is within the array. -/
theorem C10_witness :
    (runPhysOps [.addFromRawData wPhysDef7,
      .generateRaycastShape none true]).body_count ≤ kMaxPhysicsBodies ∧
    (4 : Nat) < kMaxPhysicsBodies := by
  have h := C10_body_count_bounded
    [.addFromRawData wPhysDef7, .generateRaycastShape none true]
  refine ⟨h.1, h.2 4 ?_⟩
  show 4 < (runPhysOps [.addFromRawData wPhysDef7,
    .generateRaycastShape none true]).body_count
  decide

end Corgi
